import Mathlib

/-
Verification of the resumable deployment-and-reconciliation engine
(`HyperlaneDeployer` / `HyperlaneCoreDeployer` from typescript/sdk).

The embedding models the deployer as explicit state passing over a
`DeployerState` (the deployer instance's fields plus the single target
chain's observable on-chain state) with `Except`-style errors whose state
survives a throw, mirroring a JS class instance whose fields persist when a
method rejects.  Mutating on-chain transactions are accumulated in `txLog`.
Out-of-scope collaborators (ISM factory, hook deployer, test-recipient
deployer, proxy utilities, multi-provider intersection) are not under src/
and are modelled from the spec where claims need them; each such definition
carries a `Modelled from the spec:` doc comment.  Verification-artifact
bookkeeping (pure logging, never a chain transaction) is omitted.
-/

namespace Hyperlane

/-- Addresses are modelled as naturals; `0` plays the role of
`ethers.constants.AddressZero`. -/
abbrev Address := Nat

def AddressZero : Address := 0

/-- `eqAddress` from the utils package: address equality (case-insensitive
hex comparison in the source, plain equality here). -/
def eqAddress (a b : Address) : Bool := a == b

abbrev ChainName := String

/-- An error thrown by the engine or surfaced by the chain client.
`message` models `e.message`; `reason` models `e.error?.reason`. -/
structure DeployerError where
  message : String
  reason : Option String
deriving DecidableEq, Repr

deriving instance DecidableEq for Except

/-- One mutating on-chain transaction performed by the engine. -/
inductive Tx where
  | deployTx : String → Address → Tx
  | initTx : Address → Tx
  | setIsmTx : Address → Address → Tx
  | setHookTx : Address → Address → Tx
  | transferTx : Address → Address → Tx
deriving DecidableEq, Repr

/-- Observable on-chain state of the single target chain: per contract
address, its reported owner, configured ISM / default hook / required hook,
the transparent-proxy admin storage slot, whether code is present, whether
the contract is initialized, the structural parameters of a deployed ISM
module (for the collaborator's structural comparison), and an optional
chain-client failure injected on an `initialize` transaction. -/
structure ChainState where
  code : Address → Bool
  owner : Address → Address
  admin : Address → Address
  ism : Address → Address
  hook : Address → Address
  requiredHook : Address → Address
  isInit : Address → Bool
  ismSpecOf : Address → Option Nat
  initErr : Address → Option DeployerError
  nextFree : Address

/-- The deployer instance's fields for one chain (`cachedAddresses[chain]`,
`deployedContracts[chain]`, the collaborators' own ledgers) together with
the chain state, the active signer and the transaction log. -/
structure DeployerState where
  chain : ChainState
  signer : Address
  cachedAddresses : List (String × Address)
  deployedContracts : List (String × Address)
  hookLedger : List (String × Address)
  recipientLedger : List (String × Address)
  txLog : List Tx

/-- State-passing computation with persistent state across errors. -/
def DeployM (α : Type) : Type := DeployerState → Except DeployerError α × DeployerState

def DeployM.pure {α : Type} (a : α) : DeployM α := fun s => (Except.ok a, s)

def DeployM.bind {α β : Type} (m : DeployM α) (f : α → DeployM β) : DeployM β := fun s =>
  match m s with
  | (Except.ok a, s1) => f a s1
  | (Except.error e, s1) => (Except.error e, s1)

instance : Monad DeployM where
  pure := DeployM.pure
  bind := DeployM.bind

def throwErr {α : Type} (e : DeployerError) : DeployM α := fun s => (Except.error e, s)

def tryCatchM {α : Type} (m : DeployM α) (h : DeployerError → DeployM α) : DeployM α := fun s =>
  match m s with
  | (Except.ok a, s1) => (Except.ok a, s1)
  | (Except.error e, s1) => h e s1

def getS : DeployM DeployerState := fun s => (Except.ok s, s)

def modifyS (f : DeployerState → DeployerState) : DeployM Unit := fun s => (Except.ok (), f s)

/-- Association-list lookup (JS object property read). -/
def alookup {α : Type} : List (String × α) → String → Option α
  | [], _ => none
  | (k, v) :: rest, key => if k == key then some v else alookup rest key

/-- Association-list in-place write (JS object property assignment). -/
def upsert {α : Type} : List (String × α) → String → α → List (String × α)
  | [], key, v => [(key, v)]
  | (k, w) :: rest, key, v =>
      if k == key then (k, v) :: rest else (k, w) :: upsert rest key v

/-- Effect of a successful contract-creation transaction: the new contract
lives at the next fresh address with empty storage (zeroed slots, not
initialized) and, being `Ownable`, reports its deployer — the active
signer — as owner. -/
def deployFresh (c : ChainState) (signer : Address) : Address × ChainState :=
  let a := c.nextFree
  (a,
   { code := fun x => if x == a then true else c.code x
     owner := fun x => if x == a then signer else c.owner x
     admin := fun x => if x == a then AddressZero else c.admin x
     ism := fun x => if x == a then AddressZero else c.ism x
     hook := fun x => if x == a then AddressZero else c.hook x
     requiredHook := fun x => if x == a then AddressZero else c.requiredHook x
     isInit := fun x => if x == a then false else c.isInit x
     ismSpecOf := fun x => if x == a then none else c.ismSpecOf x
     initErr := fun x => if x == a then none else c.initErr x
     nextFree := a + 1 })

/-- A constructor that makes no further state change beyond contract
creation. -/
def noCtor (_ : Address) (c : ChainState) : ChainState := c

/-- `multiProvider.handleDeploy`: submit the creation transaction, wait for
inclusion, apply the constructor's effect, record the transaction. -/
def handleDeploy (contractName : String) (ctorEffect : Address → ChainState → ChainState) :
    DeployM Address := fun s =>
  let p := deployFresh s.chain s.signer
  (Except.ok p.1,
   { s with chain := ctorEffect p.1 p.2, txLog := s.txLog ++ [Tx.deployTx contractName p.1] })

/-- `HyperlaneDeployer.runIf`: execute `fn` only when the given address
equals the active signer; otherwise log and return `undefined`. -/
def runIf {α : Type} (address : Address) (fn : DeployM α) : DeployM (Option α) := do
  let st ← getS
  if eqAddress address st.signer then
    let r ← fn
    pure (some r)
  else
    pure none

/-- `HyperlaneDeployer.runIfOwner`: `runIf` against `ownable.owner()`. -/
def runIfOwner {α : Type} (ownable : Address) (fn : DeployM α) : DeployM (Option α) := do
  let st ← getS
  runIf (st.chain.owner ownable) fn

/-- `HyperlaneDeployer.runIfAdmin`: read the proxy's admin slot, probe for
code there; with code present treat the admin as a `ProxyAdmin` contract and
gate on its owner, otherwise treat the admin as an EOA and gate on it
directly. -/
def runIfAdmin {α : Type} (proxy : Address) (signerAdminFn : DeployM α)
    (proxyAdminOwnerFn : Address → DeployM α) : DeployM (Option α) := do
  let st ← getS
  let admin := st.chain.admin proxy
  if st.chain.code admin then
    runIfOwner admin (proxyAdminOwnerFn admin)
  else
    runIf admin signerAdminFn

/-- `IsmConfig`: either a literal module address (`typeof config ===
'string'` in the source) or a structural specification, abstracted to its
semantic parameters. -/
inductive IsmConfig where
  | literal : Address → IsmConfig
  | structural : Nat → IsmConfig
deriving DecidableEq, Repr

/-- Modelled from the spec: `structurallyMatches` of the out-of-scope
module-deployment strategy (`moduleMatchesConfig` in ism/utils, not under
src/) — module-type-aware comparison of the deployed module's semantic
parameters against a structural spec. -/
def moduleMatches (c : ChainState) (moduleAddr : Address) (spec : Nat) : Bool :=
  c.ismSpecOf moduleAddr == some spec

/-- Modelled from the spec: the module-deployment strategy's `deploy` for a
structural spec (`HyperlaneIsmFactory.deploy`, not under src/) — deploys a
fresh module whose semantic parameters satisfy the spec. -/
def ismFactoryDeploy (spec : Nat) : DeployM Address := fun s =>
  let p := deployFresh s.chain s.signer
  let c2 := { p.2 with ismSpecOf := fun x => if x == p.1 then some spec else p.2.ismSpecOf x }
  (Except.ok p.1, { s with chain := c2, txLog := s.txLog ++ [Tx.deployTx "ism" p.1] })

/-- Modelled from the spec: `moduleMatchesConfig` on a full config — literal
address equality for a literal spec, structural comparison otherwise. -/
def moduleMatchesConfigB (c : ChainState) (moduleAddr : Address) : IsmConfig → Bool
  | IsmConfig.literal a => eqAddress moduleAddr a
  | IsmConfig.structural spec => moduleMatches c moduleAddr spec

/-- `HyperlaneDeployer.configureIsm`: read the configured module; for a
literal config match by address, else ask the collaborator whether it
structurally matches and (unconditionally, as in the source) deploy a
module for the spec; on a mismatch, gated on ownership, submit the set
transaction and re-read, throwing when the re-read does not equal the
target.  `getIsm`/`applySetIsm` model the caller-supplied getter and the
chain's response to the populated set transaction. -/
def configureIsm (contract : Address) (config : IsmConfig)
    (getIsm : ChainState → Address)
    (applySetIsm : Address → ChainState → ChainState) : DeployM Unit := do
  let st0 ← getS
  let configuredIsm := getIsm st0.chain
  let step ←
    (match config with
     | IsmConfig.literal a =>
         if eqAddress configuredIsm a then DeployM.pure (true, AddressZero)
         else DeployM.pure (false, a)
     | IsmConfig.structural spec => do
         let st ← getS
         let m := moduleMatches st.chain configuredIsm spec
         let target ← ismFactoryDeploy spec
         pure (m, target))
  if !step.1 then do
    let _ ← runIfOwner contract (do
      modifyS (fun s =>
        { s with chain := applySetIsm step.2 s.chain,
                 txLog := s.txLog ++ [Tx.setIsmTx contract step.2] })
      let st2 ← getS
      if !(eqAddress step.2 (getIsm st2.chain)) then
        throwErr { message := "Set ISM failed", reason := none }
      else
        pure ())
    pure ()
  else
    pure ()

/-- `HyperlaneDeployer.configureHook`: literal comparison of the configured
hook against the target; on a mismatch, gated on ownership, submit the set
transaction, re-read and throw on a post-write mismatch; when the signer is
not the owner, record the target hook as the `customHook` artifact. -/
def configureHook (contract : Address) (targetHook : Address)
    (getHook : ChainState → Address)
    (applySetHook : Address → ChainState → ChainState) : DeployM Unit := do
  let st0 ← getS
  let configuredHook := getHook st0.chain
  if !(eqAddress targetHook configuredHook) then do
    let result ← runIfOwner contract (do
      modifyS (fun s =>
        { s with chain := applySetHook targetHook s.chain,
                 txLog := s.txLog ++ [Tx.setHookTx contract targetHook] })
      let st2 ← getS
      let actualHook := getHook st2.chain
      if !(eqAddress targetHook actualHook) then
        throwErr { message := "Set hook failed", reason := none }
      else
        pure true)
    if result.isNone then
      modifyS (fun s =>
        { s with deployedContracts := upsert s.deployedContracts "customHook" targetHook })
    else
      pure ()
  else
    pure ()

/-- Getter for a mailbox client's `hook()` (also the mailbox's
`defaultHook()`). -/
def clientGetHook (client : Address) (c : ChainState) : Address := c.hook client

/-- Honest chain response to `setHook`/`setDefaultHook`. -/
def clientSetHook (client : Address) (h : Address) (c : ChainState) : ChainState :=
  { c with hook := fun x => if x == client then h else c.hook x }

/-- Getter for `interchainSecurityModule()` (also the mailbox's
`defaultIsm()`). -/
def clientGetIsm (client : Address) (c : ChainState) : Address := c.ism client

/-- Honest chain response to `setInterchainSecurityModule`/`setDefaultIsm`. -/
def clientSetIsm (client : Address) (m : Address) (c : ChainState) : ChainState :=
  { c with ism := fun x => if x == client then m else c.ism x }

/-- Getter for the mailbox's `requiredHook()`. -/
def mailboxGetRequiredHook (m : Address) (c : ChainState) : Address := c.requiredHook m

/-- Honest chain response to `setRequiredHook`. -/
def mailboxSetRequiredHook (m : Address) (h : Address) (c : ChainState) : ChainState :=
  { c with requiredHook := fun x => if x == m then h else c.requiredHook x }

/-- `MailboxClientConfig`: optional hook and ISM targets. -/
structure MailboxClientConfig where
  hook : Option Address
  interchainSecurityModule : Option IsmConfig

/-- `HyperlaneDeployer.configureClient`: reconcile the client's hook (when
configured) and then its ISM (when configured), in that order as in the
source. -/
def configureClient (client : Address) (config : MailboxClientConfig) : DeployM Unit := do
  (match config.hook with
   | some h => configureHook client h (clientGetHook client) (clientSetHook client)
   | none => pure ())
  (match config.interchainSecurityModule with
   | some ismCfg => configureIsm client ismCfg (clientGetIsm client) (clientSetIsm client)
   | none => pure ())

/-- `HyperlaneDeployer.readCache`: a previously bound address counts as a
hit only when present and non-zero. -/
def readCache (cached : List (String × Address)) (contractName : String) : Option Address :=
  match alookup cached contractName with
  | some a => if a != AddressZero then some a else none
  | none => none

/-- `HyperlaneDeployer.writeCache`: bind the slot, overwriting any previous
binding. -/
def writeCache (contractName : String) (address : Address) : DeployM Unit :=
  modifyS fun s => { s with cachedAddresses := upsert s.cachedAddresses contractName address }

/-- `HyperlaneDeployer.deployContractFromFactory`: with recovery enabled,
a ledger hit short-circuits to the cached address (verification-artifact
recovery, a pure bookkeeping step, is omitted); otherwise deploy fresh via
the constructor effect and optionally run the initializer action.
Contract verification afterwards is best-effort and never a chain
transaction, so it is omitted. -/
def deployContractFromFactory (contractName : String)
    (ctorEffect : Address → ChainState → ChainState)
    (initAct : Option (Address → DeployM Unit))
    (shouldRecover : Bool) : DeployM Address := do
  let st ← getS
  match (if shouldRecover then readCache st.cachedAddresses contractName else none) with
  | some cached => pure cached
  | none => do
      let contract ← handleDeploy contractName ctorEffect
      (match initAct with
       | some act => act contract
       | none => pure ())
      pure contract

/-- `HyperlaneDeployer.deployContractWithName`: deploy via the keyed factory
and bind the name in the ledger. -/
def deployContractWithName (contractName : String)
    (ctorEffect : Address → ChainState → ChainState)
    (initAct : Option (Address → DeployM Unit))
    (shouldRecover : Bool) : DeployM Address := do
  let contract ← deployContractFromFactory contractName ctorEffect initAct shouldRecover
  writeCache contractName contract
  pure contract

/-- `HyperlaneDeployer.deployContract`: key and name coincide. -/
def deployContract (contractKey : String)
    (initAct : Option (Address → DeployM Unit)) : DeployM Address :=
  deployContractWithName contractKey noCtor initAct true

/-- Modelled from the spec: `isProxy` from the proxy utilities (repository
code not under src/) — probes whether the address already has its
transparent-proxy admin storage slot populated. -/
def isProxy (c : ChainState) (address : Address) : Bool :=
  !(eqAddress (c.admin address) AddressZero)

/-- `HyperlaneDeployer.deployProxy`: when the implementation address is
already a proxy, return it as-is; otherwise deploy a
`TransparentUpgradeableProxy` whose constructor populates the admin slot
(the modelled call sites pass no initializer data) and return a handle at
the proxy's address. -/
def deployProxy (implementation : Address) (proxyAdminAddr : Address) : DeployM Address := do
  let st ← getS
  if isProxy st.chain implementation then
    pure implementation
  else
    deployContractFromFactory "TransparentUpgradeableProxy"
      (fun p c => { c with admin := fun x => if x == p then proxyAdminAddr else c.admin x })
      none true

/-- `HyperlaneDeployer.deployProxiedContract`: deploy (or recover) the
implementation, wrap it behind a proxy unless already proxied, and bind the
name to the resulting address. -/
def deployProxiedContract (contractName : String) (proxyAdminAddr : Address) :
    DeployM Address := do
  let implementation ← deployContractWithName contractName noCtor none true
  let contract ← deployProxy implementation proxyAdminAddr
  writeCache contractName contract
  pure contract

/-- `HyperlaneDeployer.deployTimelock`: a direct `handleDeploy` with no
ledger read or write. -/
def deployTimelock : DeployM Address :=
  handleDeploy "timelockController" noCtor

/-- `OwnableConfig`: global owner plus per-slot overrides. -/
structure OwnableConfig where
  owner : Address
  ownerOverrides : List (String × Address)

/-- One iteration of `transferOwnershipOfContracts`: compare the current
owner against `ownerOverrides[name] ?? owner` and, on a mismatch gated on
ownership, submit the transfer; returns the receipt when one was produced. -/
def transferStep (config : OwnableConfig) (contractName : String) (ownable : Address) :
    DeployM (Option Unit) := do
  let st ← getS
  let current := st.chain.owner ownable
  let ownerTarget :=
    match alookup config.ownerOverrides contractName with
    | some o => o
    | none => config.owner
  if !(eqAddress current ownerTarget) then
    runIfOwner ownable (modifyS fun s =>
      { s with
        chain := { s.chain with
          owner := fun x => if x == ownable then ownerTarget else s.chain.owner x }
        txLog := s.txLog ++ [Tx.transferTx ownable ownerTarget] })
  else
    pure none

/-- `HyperlaneDeployer.transferOwnershipOfContracts`: iterate the ownable
slots in order, collecting the number of successful transfer receipts. -/
def transferOwnershipOfContracts (config : OwnableConfig) :
    List (String × Address) → DeployM Nat
  | [] => pure 0
  | (name, a) :: rest => do
      let r ← transferStep config name a
      let n ← transferOwnershipOfContracts config rest
      pure ((if r.isSome then 1 else 0) + n)

/-- The revert reason surfaced when `initialize` is called on an
already-initialized contract. -/
def alreadyInitMessage : String := "Initializable: contract is already initialized"

/-- Does `pat` occur at the head of `l`? -/
def leadMatch : List Char → List Char → Bool
  | [], _ => true
  | _ :: _, [] => false
  | a :: as, b :: bs => a == b && leadMatch as bs

/-- Does `pat` occur anywhere in `l`? -/
def subMatch (pat : List Char) : List Char → Bool
  | [] => leadMatch pat []
  | b :: bs => leadMatch pat (b :: bs) || subMatch pat bs

/-- Boolean substring test (`String.includes`). -/
def containsSub (s pat : String) : Bool := subMatch pat.toList s.toList

/-- The catch condition of `deployMailbox`: the error signals duplicate
initialization when its message contains the revert reason, or contains the
undecoded revert-data marker, or its nested reason contains the revert
reason. -/
def matchesAlreadyInit (e : DeployerError) : Bool :=
  containsSub e.message "already initialized"
  || containsSub e.message "Reverted 0x08c379a"
  || (match e.reason with
      | some r => containsSub r "already initialized"
      | none => false)

/-- The `mailbox.initialize(owner, defaultIsm, defaultHook, requiredHook)`
transaction through `handleTx`: an injected chain-client failure or a
duplicate initialization reverts (mutating nothing); otherwise the call
sets owner, default ISM and both hooks and marks the contract
initialized. -/
def mailboxInit (mailbox owner ism defaultHook requiredHook : Address) : DeployM Unit := do
  let st ← getS
  match st.chain.initErr mailbox with
  | some e => throwErr e
  | none =>
    if st.chain.isInit mailbox then
      throwErr { message := alreadyInitMessage, reason := none }
    else
      modifyS fun s =>
        { s with
          chain := { s.chain with
            isInit := fun x => if x == mailbox then true else s.chain.isInit x
            owner := fun x => if x == mailbox then owner else s.chain.owner x
            ism := fun x => if x == mailbox then ism else s.chain.ism x
            hook := fun x => if x == mailbox then defaultHook else s.chain.hook x
            requiredHook := fun x => if x == mailbox then requiredHook else s.chain.requiredHook x }
          txLog := s.txLog ++ [Tx.initTx mailbox] }

/-- Modelled from the spec: the hook-deployment strategy collaborator
(`HyperlaneHookDeployer`, not under src/) — deploys the hook contract for a
given spec, reusing its own per-slot ledger entry when one is present. -/
def deployHookStrategy (spec : String) : DeployM Address := do
  let st ← getS
  match alookup st.hookLedger spec with
  | some a => pure a
  | none => do
      let a ← handleDeploy "hook" noCtor
      modifyS fun s => { s with hookLedger := upsert s.hookLedger spec a }
      pure a

/-- Modelled from the spec: the test-recipient slot deployer
(`TestRecipientDeployer`, not under src/) — deploys the test-recipient
contract, reusing its own ledger entry when one is present. -/
def deployTestRecipientStrategy : DeployM Address := do
  let st ← getS
  match alookup st.recipientLedger "testRecipient" with
  | some a => pure a
  | none => do
      let a ← handleDeploy "testRecipient" noCtor
      modifyS fun s => { s with recipientLedger := upsert s.recipientLedger "testRecipient" a }
      pure a

/-- Modelled from the spec: the module-deployment strategy's `deploy` on a
full config (`HyperlaneCoreDeployer.deployIsm`'s collaborator call) — for a
literal address spec the satisfying module is that address itself (no
deployment); for a structural spec a fresh satisfying module is deployed. -/
def ismDeployConfig : IsmConfig → DeployM Address
  | IsmConfig.literal a => pure a
  | IsmConfig.structural spec => ismFactoryDeploy spec

/-- `CoreConfig`: target owner, per-slot overrides, default ISM spec, the
default and required hook specs (abstracted to their type tag), the
`remove` flag and whether an upgrade/timelock section is present. -/
structure CoreConfig where
  owner : Address
  ownerOverrides : List (String × Address)
  defaultIsm : IsmConfig
  defaultHook : String
  requiredHook : String
  remove : Bool
  upgrade : Bool

/-- `HyperlaneCoreDeployer.deployMailbox`: deploy (or recover) the proxied
mailbox; judge the current default ISM against the config and deploy a
satisfying module when it does not match, binding the result in the ledger;
deploy both hooks through the hook collaborator; then try `initialize` and,
when it fails with the duplicate-initialization signal, reconcile the
default hook, the required hook and the default ISM instead; any other
initialization error is rethrown. -/
def deployMailbox (config : CoreConfig) (proxyAdminAddr : Address) : DeployM Address := do
  let mailbox ← deployProxiedContract "mailbox" proxyAdminAddr
  let st1 ← getS
  let defaultIsm0 := st1.chain.ism mailbox
  let isMatch := moduleMatchesConfigB st1.chain defaultIsm0 config.defaultIsm
  let defaultIsm ← if isMatch then pure defaultIsm0 else ismDeployConfig config.defaultIsm
  writeCache "interchainSecurityModule" defaultIsm
  let defaultHook ← deployHookStrategy config.defaultHook
  let requiredHook ← deployHookStrategy config.requiredHook
  tryCatchM (mailboxInit mailbox config.owner defaultIsm defaultHook requiredHook)
    (fun e => do
      if !(matchesAlreadyInit e) then
        throwErr e
      else do
        configureHook mailbox defaultHook (clientGetHook mailbox) (clientSetHook mailbox)
        configureHook mailbox requiredHook (mailboxGetRequiredHook mailbox)
          (mailboxSetRequiredHook mailbox)
        configureIsm mailbox (IsmConfig.literal defaultIsm) (clientGetIsm mailbox)
          (clientSetIsm mailbox))
  pure mailbox

/-- `HyperlaneCoreDeployer.deployContracts`: skip removed chains; deploy the
proxy admin, the mailbox, the validator announce and (when an upgrade is
configured) an uncached timelock whose address overrides the proxy admin's
target owner; deploy the test recipient; then transfer ownership of the
four contracts. -/
def coreDeployContracts (config : CoreConfig) : DeployM (Option (List (String × Address))) := do
  if config.remove then
    pure none
  else do
    let proxyAdminAddr ← deployContract "proxyAdmin" none
    let mailbox ← deployMailbox config proxyAdminAddr
    let validatorAnnounce ← deployContract "validatorAnnounce" none
    let overrides ←
      if config.upgrade then do
        let timelockController ← deployTimelock
        pure (upsert config.ownerOverrides "proxyAdmin" timelockController)
      else
        pure config.ownerOverrides
    let testRecipient ← deployTestRecipientStrategy
    let contracts := [("mailbox", mailbox), ("proxyAdmin", proxyAdminAddr),
                      ("validatorAnnounce", validatorAnnounce), ("testRecipient", testRecipient)]
    let _ ← transferOwnershipOfContracts
      { owner := config.owner, ownerOverrides := overrides } contracts
    pure (some contracts)

/-- Protocol family of a chain's metadata. -/
inductive ProtocolType where
  | ethereum
  | sealevel
  | cosmos
deriving DecidableEq, Repr

/-- The multi-provider's chain metadata visible to `deploy`: the chains it
knows, each chain's protocol and each chain's current block number. -/
structure MultiProvider where
  knownChains : List ChainName
  protocol : ChainName → ProtocolType
  blockNumber : ChainName → Nat

/-- The deployer-instance fields `deploy` touches across chains:
`deployedContracts` and `startingBlockNumbers` (the latter recording, per
chain, the block number read just before that chain's attempt — the
observable trace of attempted chains). -/
structure RunState (C : Type) where
  deployedContracts : List (ChainName × C)
  startingBlockNumbers : List (ChainName × Nat)
deriving DecidableEq, Repr

/-- Modelled from the spec: `runWithTimeout` from the utils package (not
under src/) — races the callback against the per-chain wall-clock budget;
within the budget the callback's outcome, value or error, is returned
unchanged.  Real time is out of scope of this embedding, so the
within-budget behaviour is modelled. -/
def runWithTimeout {α : Type} (f : Unit → Except DeployerError α) : Except DeployerError α :=
  f ()

/-- Does the chain pass the target filter of `deploy`: configured protocol
is Ethereum and the chain is known to the provider (the multi-provider
intersection, modelled from the spec's "known to the provider")? -/
def targetPred (mp : MultiProvider) (chain : ChainName) : Bool :=
  mp.protocol chain == ProtocolType.ethereum && mp.knownChains.contains chain

/-- The sequential per-chain loop of `HyperlaneDeployer.deploy`: record the
starting block number, run the per-chain deployment inside the timeout
wrapper, merge its contracts on success; an error aborts the loop and
propagates (the source has no catch around the loop body). -/
def runChains {Cfg C : Type} (mp : MultiProvider)
    (dc : ChainName → Cfg → Except DeployerError C) :
    List (ChainName × Cfg) → RunState C → Except DeployerError Unit × RunState C
  | [], s => (Except.ok (), s)
  | (chain, cfg) :: rest, s =>
      let s1 := { s with
        startingBlockNumbers := upsert s.startingBlockNumbers chain (mp.blockNumber chain) }
      match runWithTimeout (fun _ => dc chain cfg) with
      | Except.error e => (Except.error e, s1)
      | Except.ok contracts =>
          runChains mp dc rest
            { s1 with deployedContracts := upsert s1.deployedContracts chain contracts }

/-- `HyperlaneDeployer.deploy`: keep only the configured chains whose
protocol is Ethereum, intersect with the provider's known chains, run the
per-chain loop sequentially, and return the accumulated contracts map; the
per-chain deployment `dc` abstracts the subclass's `deployContracts`. -/
def deploy {Cfg C : Type} (mp : MultiProvider)
    (dc : ChainName → Cfg → Except DeployerError C)
    (configMap : List (ChainName × Cfg)) (s : RunState C) :
    Except DeployerError (List (ChainName × C)) × RunState C :=
  let targetPairs := configMap.filter (fun p => targetPred mp p.1)
  match runChains mp dc targetPairs s with
  | (Except.ok _, s1) => (Except.ok s1.deployedContracts, s1)
  | (Except.error e, s1) => (Except.error e, s1)

/-- Boolean success test on `Except`. -/
def isOkB {ε α : Type} : Except ε α → Bool
  | Except.ok _ => true
  | Except.error _ => false

/-- Contracts map after successfully deploying a list of chains in order. -/
def okResults {Cfg C : Type} (dc : ChainName → Cfg → Except DeployerError C) :
    List (ChainName × Cfg) → List (ChainName × C) → List (ChainName × C)
  | [], m => m
  | (chain, cfg) :: rest, m =>
      match dc chain cfg with
      | Except.ok c => okResults dc rest (upsert m chain c)
      | Except.error _ => m

/-- Starting-block-number trace after attempting a list of chains in
order. -/
def attemptTrace {Cfg : Type} (mp : MultiProvider) :
    List (ChainName × Cfg) → List (ChainName × Nat) → List (ChainName × Nat)
  | [], sbn => sbn
  | (chain, _) :: rest, sbn => attemptTrace mp rest (upsert sbn chain (mp.blockNumber chain))

/-! Concrete fixtures used by witnesses and counterexamples. -/

/-- The active signer in concrete scenarios. -/
def signerAddr : Address := 1000

/-- A chain with no contracts yet. -/
def cleanChain : ChainState :=
  { code := fun _ => false, owner := fun _ => 0, admin := fun _ => 0, ism := fun _ => 0,
    hook := fun _ => 0, requiredHook := fun _ => 0, isInit := fun _ => false,
    ismSpecOf := fun _ => none, initErr := fun _ => none, nextFree := 1 }

/-- A fresh deployer instance over a clean chain. -/
def cleanState : DeployerState :=
  { chain := cleanChain, signer := signerAddr, cachedAddresses := [], deployedContracts := [],
    hookLedger := [], recipientLedger := [], txLog := [] }

end Hyperlane

namespace Hyperlane

/-! ## C3 — post-write verification -/

/-! Fixtures and auxiliary definitions used by the theorems below. -/

/-- A chain state for the post-write scenario: contract `5` is owned by the
signer and reports ISM/hook `3`. -/
def stuckChain : ChainState :=
  { cleanChain with
    owner := fun x => if x == 5 then signerAddr else 0
    ism := fun x => if x == 5 then 3 else 0
    hook := fun x => if x == 5 then 3 else 0 }

/-- Deployer state for the post-write scenario. -/
def stuckState : DeployerState := { cleanState with chain := stuckChain }

/-- A chain exhibiting every authority-mismatch shape at once. -/
def gateChain : ChainState :=
  { cleanChain with
    owner := fun x => if x == 11 then 5 else if x == 20 then 7 else
      if x == 14 then signerAddr else 0
    admin := fun x => if x == 12 then 20 else if x == 13 then 21 else 0
    code := fun x => x == 20
    ism := fun x => if x == 11 then 3 else 0 }

/-- Deployer state for the authority-gating scenario. -/
def gateState : DeployerState := { cleanState with chain := gateChain }

/-- A chain whose contract `2` already points at module `4`, which
structurally satisfies spec `55`. -/
def matchedChain : ChainState :=
  { cleanChain with
    ism := fun x => if x == 2 then 4 else 0
    ismSpecOf := fun x => if x == 4 then some 55 else none
    nextFree := 10 }

/-- Deployer state for the structural-match scenario. -/
def matchedState : DeployerState := { cleanState with chain := matchedChain }

/-- The first proxied deployment of the two-in-sequence scenario: from a
clean chain, `mailbox` gets implementation `1` wrapped by proxy `2`. -/
def firstWrap : Except DeployerError Address × DeployerState :=
  deployProxiedContract "mailbox" 9 cleanState

/-- A state whose `mailbox` ledger entry `3` is already a proxy. -/
def proxiedState : DeployerState :=
  { cleanState with
    cachedAddresses := [("mailbox", 3)]
    chain := { cleanChain with admin := fun x => if x == 3 then 1 else 0 } }

/-- Reconciliation class of a transaction: hook set, module set, ownership
transfer; deployments and initializations are unclassified. -/
def txRank : Tx → Option Nat
  | Tx.setHookTx _ _ => some 0
  | Tx.setIsmTx _ _ => some 1
  | Tx.transferTx _ _ => some 2
  | _ => none

/-- Is the list of ranks weakly increasing? -/
def sortedRanks : List Nat → Bool
  | [] => true
  | [_] => true
  | a :: b :: rest => decide (a ≤ b) && sortedRanks (b :: rest)

/-- A mailbox client `2` whose hook (`3`) and ISM (`4`) both differ from
their targets, owned by the signer. -/
def clientChain : ChainState :=
  { cleanChain with
    owner := fun x => if x == 2 then signerAddr else 0
    hook := fun x => if x == 2 then 3 else 0
    ism := fun x => if x == 2 then 4 else 0 }

/-- Deployer state for the client-reconciliation scenario. -/
def clientState : DeployerState := { cleanState with chain := clientChain }

/-- A warm chain for the full-pipeline ordering scenario: every slot is in
the ledgers (proxy admin `1`, mailbox proxy `2`, validator announce `4`,
test recipient `5`, hooks `30`/`31`), the mailbox is initialized with stale
hook/ISM values, and the signer owns everything. -/
def staleFull (i0 h0 r0 : Address) : DeployerState :=
  { chain :=
      { cleanChain with
        owner := fun x => if x == 1 || x == 2 || x == 4 || x == 5 then signerAddr else 0
        admin := fun x => if x == 2 then 1 else 0
        isInit := fun x => x == 2
        ism := fun x => if x == 2 then i0 else 0
        hook := fun x => if x == 2 then h0 else 0
        requiredHook := fun x => if x == 2 then r0 else 0
        nextFree := 50 }
    signer := signerAddr
    cachedAddresses := [("proxyAdmin", 1), ("mailbox", 2), ("validatorAnnounce", 4)]
    deployedContracts := []
    hookLedger := [("mh", 30), ("ph", 31)]
    recipientLedger := [("testRecipient", 5)]
    txLog := [] }

/-- Target configuration for the ordering scenario. -/
def cfgStale (iT ow : Address) : CoreConfig :=
  { owner := ow, ownerOverrides := [], defaultIsm := IsmConfig.literal iT,
    defaultHook := "mh", requiredHook := "ph", remove := false, upgrade := false }

/-- A warm state whose mailbox `initialize` fails with a chain-client error
that does not signal duplicate initialization. -/
def brokenState : DeployerState :=
  { staleFull 7 8 9 with
    chain := { (staleFull 7 8 9).chain with
      initErr := fun x =>
        if x == 2 then some { message := "ECONNRESET", reason := none } else none } }

/-- Three known Ethereum chains. -/
def mp3 : MultiProvider :=
  { knownChains := ["one", "two", "three"], protocol := fun _ => ProtocolType.ethereum,
    blockNumber := fun _ => 5 }

/-- A per-chain deployment that raises a non-timeout fatal error on chain
`two` and succeeds elsewhere. -/
def dcFail (chain : ChainName) (_ : Unit) : Except DeployerError Nat :=
  if chain == "two" then Except.error { message := "boom", reason := none } else Except.ok 1

/-- A three-chain configuration map. -/
def cfg3 : List (ChainName × Unit) := [("one", ()), ("two", ()), ("three", ())]

/-- A fresh multi-chain run state. -/
def emptyRun : RunState Nat := { deployedContracts := [], startingBlockNumbers := [] }

/-- A provider that knows three chains but reports chain `two` as
non-Ethereum. -/
def mpMixed : MultiProvider :=
  { knownChains := ["one", "two", "three"],
    protocol := fun c => if c == "two" then ProtocolType.cosmos else ProtocolType.ethereum,
    blockNumber := fun _ => 5 }

/-- A per-chain deployment that always succeeds. -/
def dcOk (_ : ChainName) (_ : Unit) : Except DeployerError Nat := Except.ok 1

/-- The per-slot target owner: `ownerOverrides[name] ?? owner`. -/
def tgtOwner (cfgO : OwnableConfig) (name : String) : Address :=
  match alookup cfgO.ownerOverrides name with
  | some o => o
  | none => cfgO.owner

/-- A slot is stable when its owner already matches the target or the
signer has no authority over it: in either case a transfer step is a
no-op. -/
def ownerStable (cfgO : OwnableConfig) (name : String) (a : Address)
    (S : DeployerState) : Prop :=
  S.chain.owner a = tgtOwner cfgO name ∨ S.chain.owner a ≠ S.signer

/-- The state after the transfer pass, slot by slot. -/
def TOCState (cfgO : OwnableConfig) : List (String × Address) → DeployerState → DeployerState
  | [], S => S
  | p :: rest, S => TOCState cfgO rest (transferStep cfgO p.1 p.2 S).2

/-- The number of transfer receipts collected by the transfer pass. -/
def TOCCount (cfgO : OwnableConfig) : List (String × Address) → DeployerState → Nat
  | [], _ => 0
  | p :: rest, S =>
      (if (transferStep cfgO p.1 p.2 S).1 = Except.ok (some ()) then 1 else 0)
        + TOCCount cfgO rest (transferStep cfgO p.1 p.2 S).2

/-- The state a second run reaches just before its transfer pass: the chain
and transaction log of the first run's final state, with the ledgers
rewritten to the (unchanged) values of the first run's pre-transfer
state. -/
def SB_of (cfgO : OwnableConfig) (L : List (String × Address)) (SA : DeployerState) :
    DeployerState :=
  { chain := (TOCState cfgO L SA).chain
    signer := SA.signer
    cachedAddresses := SA.cachedAddresses
    deployedContracts := SA.deployedContracts
    hookLedger := SA.hookLedger
    recipientLedger := SA.recipientLedger
    txLog := (TOCState cfgO L SA).txLog }

/-- Ownable slots of a first run whose validator announce and test
recipient land at `6` and `7`. -/
def slots67 : List (String × Address) :=
  [("mailbox", 3), ("proxyAdmin", 1), ("validatorAnnounce", 6), ("testRecipient", 7)]

/-- Ownable slots of a first run whose validator announce and test
recipient land at `5` and `6`. -/
def slots56 : List (String × Address) :=
  [("mailbox", 3), ("proxyAdmin", 1), ("validatorAnnounce", 5), ("testRecipient", 6)]

/-- Ownable slots of a first run whose validator announce and test
recipient land at `7` and `8`. -/
def slots78 : List (String × Address) :=
  [("mailbox", 3), ("proxyAdmin", 1), ("validatorAnnounce", 7), ("testRecipient", 8)]

/-- Pre-transfer state of a first run with a literal ISM spec and distinct
hook specs. -/
def SA_lit (ow z : Address) (dh rh : String) :
    DeployerState :=
  { chain :=
      { code := fun x =>
          decide (x = 7) || (decide (x = 6) || (decide (x = 5) ||
            (decide (x = 4) || (decide (x = 3) || (decide (x = 2) || decide (x = 1))))))
        owner := fun x =>
          if x = 7 then 1000 else if x = 6 then 1000 else if x = 3 then ow
          else if x = 5 then 1000 else if x = 4 then 1000 else if x = 3 then 1000
          else if x = 2 then 1000 else if x = 1 then 1000 else 0
        admin := fun x =>
          if x = 7 then 0 else if x = 6 then 0 else if x = 5 then 0
          else if x = 4 then 0 else if x = 3 then 1 else 0
        ism := fun x => if x = 7 then 0 else if x = 6 then 0 else if x = 3 then z else 0
        hook := fun x => if x = 7 then 0 else if x = 6 then 0 else if x = 3 then 4 else 0
        requiredHook := fun x =>
          if x = 7 then 0 else if x = 6 then 0 else if x = 3 then 5 else 0
        isInit := fun x => !decide (x = 7) && (!decide (x = 6) && decide (x = 3))
        ismSpecOf := fun _ => none
        initErr := fun _ => none
        nextFree := 8 }
    signer := 1000
    cachedAddresses := [("proxyAdmin", 1), ("mailbox", 3), ("interchainSecurityModule", z),
      ("validatorAnnounce", 6)]
    deployedContracts := []
    hookLedger := [(dh, 4), (rh, 5)]
    recipientLedger := [("testRecipient", 7)]
    txLog := [Tx.deployTx "proxyAdmin" 1, Tx.deployTx "mailbox" 2,
      Tx.deployTx "TransparentUpgradeableProxy" 3, Tx.deployTx "hook" 4,
      Tx.deployTx "hook" 5, Tx.initTx 3, Tx.deployTx "validatorAnnounce" 6,
      Tx.deployTx "testRecipient" 7] }

/-- Pre-transfer state of a first run with a literal ISM spec and equal
hook specs. -/
def SA_litSame (ow z : Address) (dh : String) :
    DeployerState :=
  { chain :=
      { code := fun x =>
          decide (x = 6) || (decide (x = 5) ||
            (decide (x = 4) || (decide (x = 3) || (decide (x = 2) || decide (x = 1)))))
        owner := fun x =>
          if x = 6 then 1000 else if x = 5 then 1000 else if x = 3 then ow
          else if x = 4 then 1000 else if x = 3 then 1000
          else if x = 2 then 1000 else if x = 1 then 1000 else 0
        admin := fun x =>
          if x = 6 then 0 else if x = 5 then 0 else if x = 4 then 0
          else if x = 3 then 1 else 0
        ism := fun x => if x = 6 then 0 else if x = 5 then 0 else if x = 3 then z else 0
        hook := fun x => if x = 6 then 0 else if x = 5 then 0 else if x = 3 then 4 else 0
        requiredHook := fun x =>
          if x = 6 then 0 else if x = 5 then 0 else if x = 3 then 4 else 0
        isInit := fun x => !decide (x = 6) && (!decide (x = 5) && decide (x = 3))
        ismSpecOf := fun _ => none
        initErr := fun _ => none
        nextFree := 7 }
    signer := 1000
    cachedAddresses := [("proxyAdmin", 1), ("mailbox", 3), ("interchainSecurityModule", z),
      ("validatorAnnounce", 5)]
    deployedContracts := []
    hookLedger := [(dh, 4)]
    recipientLedger := [("testRecipient", 6)]
    txLog := [Tx.deployTx "proxyAdmin" 1, Tx.deployTx "mailbox" 2,
      Tx.deployTx "TransparentUpgradeableProxy" 3, Tx.deployTx "hook" 4, Tx.initTx 3,
      Tx.deployTx "validatorAnnounce" 5, Tx.deployTx "testRecipient" 6] }

/-- Pre-transfer state of a first run with the zero literal ISM spec and
distinct hook specs. -/
def SA_lit0 (ow : Address) (dh rh : String) : DeployerState :=
  { SA_lit ow 0 dh rh with
    chain := { (SA_lit ow 0 dh rh).chain with ism := fun _ => 0 } }

/-- Pre-transfer state of a first run with the zero literal ISM spec and
equal hook specs. -/
def SA_litSame0 (ow : Address) (dh : String) : DeployerState :=
  { SA_litSame ow 0 dh with
    chain := { (SA_litSame ow 0 dh).chain with ism := fun _ => 0 } }

/-- Pre-transfer state of a first run with a structural ISM spec and
distinct hook specs. -/
def SA_str (ow : Address) (sp : Nat) (dh rh : String) :
    DeployerState :=
  { chain :=
      { code := fun x =>
          decide (x = 8) || (decide (x = 7) || (decide (x = 6) || (decide (x = 5) ||
            (decide (x = 4) || (decide (x = 3) || (decide (x = 2) || decide (x = 1)))))))
        owner := fun x =>
          if x = 8 then 1000 else if x = 7 then 1000 else if x = 3 then ow
          else if x = 6 then 1000 else if x = 5 then 1000 else if x = 4 then 1000
          else if x = 3 then 1000 else if x = 2 then 1000 else if x = 1 then 1000 else 0
        admin := fun x =>
          if x = 8 then 0 else if x = 7 then 0 else if x = 6 then 0 else if x = 5 then 0
          else if x = 4 then 0 else if x = 3 then 1 else 0
        ism := fun x => if x = 8 then 0 else if x = 7 then 0 else if x = 3 then 4 else 0
        hook := fun x => if x = 8 then 0 else if x = 7 then 0 else if x = 3 then 5 else 0
        requiredHook := fun x =>
          if x = 8 then 0 else if x = 7 then 0 else if x = 3 then 6 else 0
        isInit := fun x => !decide (x = 8) && (!decide (x = 7) && decide (x = 3))
        ismSpecOf := fun x =>
          if x = 8 then none else if x = 7 then none else if x = 6 then none
          else if x = 5 then none else if x = 4 then some sp else none
        initErr := fun _ => none
        nextFree := 9 }
    signer := 1000
    cachedAddresses := [("proxyAdmin", 1), ("mailbox", 3), ("interchainSecurityModule", 4),
      ("validatorAnnounce", 7)]
    deployedContracts := []
    hookLedger := [(dh, 5), (rh, 6)]
    recipientLedger := [("testRecipient", 8)]
    txLog := [Tx.deployTx "proxyAdmin" 1, Tx.deployTx "mailbox" 2,
      Tx.deployTx "TransparentUpgradeableProxy" 3, Tx.deployTx "ism" 4,
      Tx.deployTx "hook" 5, Tx.deployTx "hook" 6, Tx.initTx 3,
      Tx.deployTx "validatorAnnounce" 7, Tx.deployTx "testRecipient" 8] }

/-- Pre-transfer state of a first run with a structural ISM spec and equal
hook specs. -/
def SA_strSame (ow : Address) (sp : Nat) (dh : String) :
    DeployerState :=
  { chain :=
      { code := fun x =>
          decide (x = 7) || (decide (x = 6) || (decide (x = 5) ||
            (decide (x = 4) || (decide (x = 3) || (decide (x = 2) || decide (x = 1))))))
        owner := fun x =>
          if x = 7 then 1000 else if x = 6 then 1000 else if x = 3 then ow
          else if x = 5 then 1000 else if x = 4 then 1000 else if x = 3 then 1000
          else if x = 2 then 1000 else if x = 1 then 1000 else 0
        admin := fun x =>
          if x = 7 then 0 else if x = 6 then 0 else if x = 5 then 0
          else if x = 4 then 0 else if x = 3 then 1 else 0
        ism := fun x => if x = 7 then 0 else if x = 6 then 0 else if x = 3 then 4 else 0
        hook := fun x => if x = 7 then 0 else if x = 6 then 0 else if x = 3 then 5 else 0
        requiredHook := fun x =>
          if x = 7 then 0 else if x = 6 then 0 else if x = 3 then 5 else 0
        isInit := fun x => !decide (x = 7) && (!decide (x = 6) && decide (x = 3))
        ismSpecOf := fun x =>
          if x = 7 then none else if x = 6 then none else if x = 5 then none
          else if x = 4 then some sp else none
        initErr := fun _ => none
        nextFree := 8 }
    signer := 1000
    cachedAddresses := [("proxyAdmin", 1), ("mailbox", 3), ("interchainSecurityModule", 4),
      ("validatorAnnounce", 6)]
    deployedContracts := []
    hookLedger := [(dh, 5)]
    recipientLedger := [("testRecipient", 7)]
    txLog := [Tx.deployTx "proxyAdmin" 1, Tx.deployTx "mailbox" 2,
      Tx.deployTx "TransparentUpgradeableProxy" 3, Tx.deployTx "ism" 4,
      Tx.deployTx "hook" 5, Tx.initTx 3, Tx.deployTx "validatorAnnounce" 6,
      Tx.deployTx "testRecipient" 7] }

/-- A target configuration with an upgrade/timelock section. -/
def cfgWithUpgrade : CoreConfig :=
  { owner := 2000, ownerOverrides := [], defaultIsm := IsmConfig.structural 7,
    defaultHook := "mh", requiredHook := "ph", remove := false, upgrade := true }

/-- A target configuration without an upgrade section, for the witness. -/
def cfgNoUpgrade : CoreConfig :=
  { owner := 2000, ownerOverrides := [], defaultIsm := IsmConfig.structural 7,
    defaultHook := "mh", requiredHook := "ph", remove := false, upgrade := false }

/-- C3: in any authorized module- or hook-reconciliation step where the
current value differs from the target (so the set transaction is
submitted), if the re-read after the write still differs from the target,
the step throws (`Set ISM failed` / `Set hook failed`); a post-write
mismatch is never silently accepted. -/
theorem post_write_mismatch_fatal_C3
    (st : DeployerState) (contract target : Address)
    (getV : ChainState → Address) (applySet : Address → ChainState → ChainState)
    (hOwner : st.chain.owner contract = st.signer)
    (hDiff : getV st.chain ≠ target)
    (hBad : getV (applySet target st.chain) ≠ target) :
    (configureIsm contract (IsmConfig.literal target) getV applySet st).1
      = Except.error { message := "Set ISM failed", reason := none }
    ∧ (configureHook contract target getV applySet st).1
      = Except.error { message := "Set hook failed", reason := none } := by
  have h1 : ¬ (target = getV st.chain) := fun h => hDiff h.symm
  have h2 : ¬ (target = getV (applySet target st.chain)) := fun h => hBad h.symm
  constructor
  · simp [configureIsm, runIfOwner, runIf, getS, modifyS, throwErr, DeployM.bind,
      DeployM.pure, bind, pure, eqAddress, AddressZero, hOwner, hDiff, hBad, h1, h2]
  · simp [configureHook, runIfOwner, runIf, getS, modifyS, throwErr, DeployM.bind,
      DeployM.pure, bind, pure, eqAddress, AddressZero, hOwner, hDiff, hBad, h1, h2]

/-- Witness for C3 at a concrete input: a chain that ignores the set
transaction (`applySet` leaves the state unchanged) makes both steps
throw. -/
theorem post_write_mismatch_fatal_C3_witness :
    stuckState.chain.owner 5 = stuckState.signer
    ∧ (fun c : ChainState => c.ism 5) stuckState.chain ≠ 4
    ∧ (fun c : ChainState => c.ism 5) ((fun _ c => c : Address → ChainState → ChainState) 4 stuckState.chain) ≠ 4
    ∧ ((configureIsm 5 (IsmConfig.literal 4) (fun c => c.ism 5) (fun _ c => c) stuckState).1
        = Except.error { message := "Set ISM failed", reason := none }
      ∧ (configureHook 5 4 (fun c => c.ism 5) (fun _ c => c) stuckState).1
        = Except.error { message := "Set hook failed", reason := none }) :=
  ⟨by decide, by decide, by decide,
   post_write_mismatch_fatal_C3 stuckState 5 4 (fun c => c.ism 5) (fun _ c => c)
     (by decide) (by decide) (by decide)⟩

/-! ## C4 — authority gating -/

/-- C4: whenever the active signer is not the resolved authority — the
reported address for `runIf`, the contract's owner for `runIfOwner`, the
admin contract's owner (indirect) or the EOA admin (direct) for
`runIfAdmin` — the operation performs no action and raises no error; the
gated reconciliation steps (`configureIsm`, `configureHook`,
`transferStep`) likewise submit no transaction and raise no error; and an
exception is propagated exactly when the chosen action itself raises it. -/
theorem authority_mismatch_skips_C4
    (st st' : DeployerState) (α : Type) (fn fnE : DeployM α)
    (f2 : Address → DeployM α)
    (addr ownable1 ownable2 proxy1 proxy2 target : Address)
    (g : ChainState → Address) (ap : Address → ChainState → ChainState)
    (e : DeployerError) (cfgO : OwnableConfig) (name : String)
    (h1 : eqAddress addr st.signer = false)
    (h2 : eqAddress (st.chain.owner ownable1) st.signer = false)
    (h3c : st.chain.code (st.chain.admin proxy1) = true)
    (h3 : eqAddress (st.chain.owner (st.chain.admin proxy1)) st.signer = false)
    (h4c : st.chain.code (st.chain.admin proxy2) = false)
    (h4 : eqAddress (st.chain.admin proxy2) st.signer = false)
    (h5 : st.chain.owner ownable2 = st.signer)
    (h6 : fnE st = (Except.error e, st'))
    (h7 : g st.chain ≠ target)
    (h8 : st.chain.owner ownable1 ≠
      (match alookup cfgO.ownerOverrides name with
       | some o => o
       | none => cfgO.owner)) :
    runIf addr fn st = (Except.ok none, st)
    ∧ runIfOwner ownable1 fn st = (Except.ok none, st)
    ∧ runIfAdmin proxy1 fn f2 st = (Except.ok none, st)
    ∧ runIfAdmin proxy2 fn f2 st = (Except.ok none, st)
    ∧ runIfOwner ownable2 fnE st = (Except.error e, st')
    ∧ configureIsm ownable1 (IsmConfig.literal target) g ap st = (Except.ok (), st)
    ∧ ((configureHook ownable1 target g ap st).1 = Except.ok ()
       ∧ (configureHook ownable1 target g ap st).2.txLog = st.txLog)
    ∧ transferStep cfgO name ownable1 st = (Except.ok none, st) := by
  have hne : ¬ (st.chain.owner ownable1 = st.signer) := by
    simpa [eqAddress] using h2
  have hd : ¬ (target = g st.chain) := fun h => h7 h.symm
  refine ⟨?_, ?_, ?_, ?_, ?_, ?_, ?_, ?_⟩
  · simp [runIf, getS, DeployM.bind, DeployM.pure, bind, pure, eqAddress,
      (by simpa [eqAddress] using h1 : ¬ (addr = st.signer))]
  · simp [runIfOwner, runIf, getS, DeployM.bind, DeployM.pure, bind, pure, eqAddress, hne]
  · simp [runIfAdmin, runIfOwner, runIf, getS, DeployM.bind, DeployM.pure, bind, pure,
      eqAddress, h3c, (by simpa [eqAddress] using h3 :
        ¬ (st.chain.owner (st.chain.admin proxy1) = st.signer))]
  · simp [runIfAdmin, runIfOwner, runIf, getS, DeployM.bind, DeployM.pure, bind, pure,
      eqAddress, h4c, (by simpa [eqAddress] using h4 : ¬ (st.chain.admin proxy2 = st.signer))]
  · simp [runIfOwner, runIf, getS, DeployM.bind, DeployM.pure, bind, pure, eqAddress, h5, h6]
  · simp [configureIsm, runIfOwner, runIf, getS, modifyS, throwErr, DeployM.bind,
      DeployM.pure, bind, pure, eqAddress, hne, hd, h7]
  · constructor <;>
      simp [configureHook, runIfOwner, runIf, getS, modifyS, throwErr, DeployM.bind,
        DeployM.pure, bind, pure, eqAddress, hne, hd, h7, upsert]
  · simp [transferStep, runIfOwner, runIf, getS, modifyS, DeployM.bind, DeployM.pure,
      bind, pure, eqAddress, hne, h8]

/-- Witness for C4 at a concrete input, exercising every conjunct. -/
theorem authority_mismatch_skips_C4_witness :
    (eqAddress 10 gateState.signer = false
     ∧ eqAddress (gateState.chain.owner 11) gateState.signer = false
     ∧ gateState.chain.code (gateState.chain.admin 12) = true
     ∧ eqAddress (gateState.chain.owner (gateState.chain.admin 12)) gateState.signer = false
     ∧ gateState.chain.code (gateState.chain.admin 13) = false
     ∧ eqAddress (gateState.chain.admin 13) gateState.signer = false
     ∧ gateState.chain.owner 14 = gateState.signer)
    ∧ (runIf 10 (DeployM.pure 0) gateState = (Except.ok none, gateState)
       ∧ runIfOwner 11 (DeployM.pure 0) gateState = (Except.ok none, gateState)
       ∧ runIfAdmin 12 (DeployM.pure 0) (fun _ => DeployM.pure 0) gateState
           = (Except.ok none, gateState)
       ∧ runIfAdmin 13 (DeployM.pure 0) (fun _ => DeployM.pure 0) gateState
           = (Except.ok none, gateState)
       ∧ runIfOwner 14 (throwErr { message := "boom", reason := none } : DeployM Nat) gateState
           = (Except.error { message := "boom", reason := none }, gateState)
       ∧ configureIsm 11 (IsmConfig.literal 4) (fun c => c.ism 11) (fun _ c => c) gateState
           = (Except.ok (), gateState)
       ∧ ((configureHook 11 4 (fun c => c.ism 11) (fun _ c => c) gateState).1 = Except.ok ()
          ∧ (configureHook 11 4 (fun c => c.ism 11) (fun _ c => c) gateState).2.txLog
              = gateState.txLog)
       ∧ transferStep { owner := 9000, ownerOverrides := [] } "x" 11 gateState
           = (Except.ok none, gateState)) := by
  refine ⟨by decide, ?_⟩
  have h := authority_mismatch_skips_C4 gateState gateState Nat (DeployM.pure 0)
    (throwErr { message := "boom", reason := none } : DeployM Nat) (fun _ => DeployM.pure 0)
    10 11 14 12 13 4 (fun c => c.ism 11) (fun _ c => c)
    { message := "boom", reason := none } { owner := 9000, ownerOverrides := [] } "x"
    (by decide) (by decide) (by decide) (by decide) (by decide) (by decide) (by decide)
    rfl (by decide) (by decide)
  exact ⟨h.1, h.2.1, h.2.2.1, h.2.2.2.1, h.2.2.2.2.1, h.2.2.2.2.2.1,
    h.2.2.2.2.2.2.1, h.2.2.2.2.2.2.2⟩

/-! ## C9 — hook reconciliation records the unapplied target -/

/-- C9: when the configured hook differs from the target and the signer is
not the owner, `configureHook` submits no transaction, raises no error, and
records the target under the `customHook` artifact slot; when the hooks
already match, it changes nothing at all — no transaction and no
`customHook` record. -/
theorem configure_hook_custom_artifact_C9
    (st st2 : DeployerState) (contract target c2 t2 : Address)
    (g g2 : ChainState → Address)
    (ap ap2 : Address → ChainState → ChainState)
    (hDiff : g st.chain ≠ target)
    (hOwner : st.chain.owner contract ≠ st.signer)
    (hEq : g2 st2.chain = t2) :
    configureHook contract target g ap st
      = (Except.ok (),
         { st with deployedContracts := upsert st.deployedContracts "customHook" target })
    ∧ configureHook c2 t2 g2 ap2 st2 = (Except.ok (), st2) := by
  have hd : ¬ (target = g st.chain) := fun h => hDiff h.symm
  constructor
  · simp [configureHook, runIfOwner, runIf, getS, modifyS, throwErr, DeployM.bind,
      DeployM.pure, bind, pure, eqAddress, hd, hOwner]
  · simp [configureHook, runIfOwner, runIf, getS, modifyS, throwErr, DeployM.bind,
      DeployM.pure, bind, pure, eqAddress, hEq]

/-- Witness for C9 at concrete inputs: contract `11` of `gateState` has
hook `3` and an owner distinct from the signer. -/
theorem configure_hook_custom_artifact_C9_witness :
    ((fun c : ChainState => c.hook 11) gateState.chain ≠ 4
     ∧ gateState.chain.owner 11 ≠ gateState.signer
     ∧ (fun c : ChainState => c.hook 11) gateState.chain = 0)
    ∧ configureHook 11 4 (fun c => c.hook 11) (fun _ c => c) gateState
        = (Except.ok (),
           { gateState with
             deployedContracts := upsert gateState.deployedContracts "customHook" 4 })
    ∧ configureHook 11 0 (fun c => c.hook 11) (fun _ c => c) gateState
        = (Except.ok (), gateState) := by
  refine ⟨by decide, ?_⟩
  exact configure_hook_custom_artifact_C9 gateState gateState 11 4 11 0
    (fun c => c.hook 11) (fun c => c.hook 11) (fun _ c => c) (fun _ c => c)
    (by decide) (by decide) (by decide)

/-! ## C8 — structural module reconciliation -/

/-- Counterexample to C8 as stated: even though the currently configured
module `4` structurally satisfies spec `55`, `configureIsm` still invokes
the collaborator's deploy — the transaction log gains a fresh module
deployment (at address `10`), so a new module is not deployed "only if it
does not" match.  (No set-module transaction is submitted.) -/
theorem ism_deploy_even_on_match_C8_cx :
    moduleMatches matchedState.chain (clientGetIsm 2 matchedState.chain) 55 = true
    ∧ (configureIsm 2 (IsmConfig.structural 55) (clientGetIsm 2) (clientSetIsm 2)
        matchedState).1 = Except.ok ()
    ∧ (configureIsm 2 (IsmConfig.structural 55) (clientGetIsm 2) (clientSetIsm 2)
        matchedState).2.txLog = [Tx.deployTx "ism" 10] := by
  decide

/-- C8 amended: with a structural desired spec, the engine first asks the
collaborator whether the currently configured module structurally satisfies
the spec, but invokes the collaborator's deploy unconditionally — even on a
match exactly one fresh module deployment happens; on a match no set-module
transaction is submitted and no error is raised. -/
theorem ism_structural_match_skips_set_C8
    (st : DeployerState) (contract : Address) (spec : Nat)
    (g : ChainState → Address) (ap : Address → ChainState → ChainState)
    (hMatch : moduleMatches st.chain (g st.chain) spec = true) :
    (configureIsm contract (IsmConfig.structural spec) g ap st).1 = Except.ok ()
    ∧ (configureIsm contract (IsmConfig.structural spec) g ap st).2.txLog
        = st.txLog ++ [Tx.deployTx "ism" st.chain.nextFree] := by
  constructor <;>
    simp [configureIsm, ismFactoryDeploy, deployFresh, runIfOwner, runIf, getS, modifyS,
      throwErr, DeployM.bind, DeployM.pure, bind, pure, hMatch]

/-- Witness for the amended C8 at a concrete input. -/
theorem ism_structural_match_skips_set_C8_witness :
    moduleMatches matchedState.chain ((fun c : ChainState => c.ism 2) matchedState.chain) 55
        = true
    ∧ ((configureIsm 2 (IsmConfig.structural 55) (fun c => c.ism 2) (clientSetIsm 2)
          matchedState).1 = Except.ok ()
       ∧ (configureIsm 2 (IsmConfig.structural 55) (fun c => c.ism 2) (clientSetIsm 2)
            matchedState).2.txLog
           = matchedState.txLog ++ [Tx.deployTx "ism" matchedState.chain.nextFree]) :=
  ⟨by decide,
   ism_structural_match_skips_set_C8 matchedState 2 55 (fun c => c.ism 2) (clientSetIsm 2)
     (by decide)⟩

/-! ## C5 — no double-proxy -/

/-- Rebinding a slot to the value it already holds leaves the ledger
unchanged. -/
theorem upsert_self {α : Type} (l : List (String × α)) (k : String) (v : α)
    (h : alookup l k = some v) : upsert l k v = l := by
  induction l with
  | nil => simp [alookup] at h
  | cons p rest ih =>
    obtain ⟨k0, v0⟩ := p
    by_cases hk : (k0 == k) = true
    · simp [alookup, hk] at h
      simp [upsert, hk, h]
    · simp [alookup, hk] at h
      simp [upsert, hk, ih h]

/-- C5: `deployProxy` returns an already-proxied implementation address
as-is, deploying nothing; `deployProxiedContract` over a ledger entry that
is already a proxy returns it with the state untouched; and running
`deployProxiedContract` twice in sequence from a clean chain leaves the
second run with the first run's proxy address and no new transaction —
an already-proxied address is never wrapped again. -/
theorem no_double_proxy_C5
    (st : DeployerState) (impl pa cached : Address) (name : String)
    (hproxy : isProxy st.chain impl = true)
    (hcache : alookup st.cachedAddresses name = some cached)
    (hnz : cached ≠ 0)
    (hcproxy : isProxy st.chain cached = true) :
    deployProxy impl pa st = (Except.ok impl, st)
    ∧ deployProxiedContract name pa st = (Except.ok cached, st)
    ∧ deployProxiedContract "mailbox" 9 firstWrap.2 = (Except.ok 2, firstWrap.2) := by
  have hb : (cached != AddressZero) = true := by
    simp [AddressZero, hnz]
  refine ⟨?_, ?_, ?_⟩
  · simp [deployProxy, getS, DeployM.bind, DeployM.pure, bind, pure, hproxy]
  · simp [deployProxiedContract, deployContractWithName, deployContractFromFactory,
      readCache, writeCache, deployProxy, getS, modifyS, DeployM.bind, DeployM.pure,
      bind, pure, hcache, hb, hproxy, hcproxy, upsert_self _ _ _ hcache]
  · simp [firstWrap, deployProxiedContract, deployContractWithName,
      deployContractFromFactory, readCache, writeCache, deployProxy, isProxy, eqAddress,
      AddressZero, handleDeploy, deployFresh, noCtor, alookup, upsert, getS, modifyS,
      DeployM.bind, DeployM.pure, bind, pure, cleanState, cleanChain, signerAddr]

/-- Witness for C5 at a concrete input. -/
theorem no_double_proxy_C5_witness :
    (isProxy proxiedState.chain 3 = true
     ∧ alookup proxiedState.cachedAddresses "mailbox" = some 3
     ∧ (3 : Address) ≠ 0)
    ∧ deployProxy 3 1 proxiedState = (Except.ok 3, proxiedState)
    ∧ deployProxiedContract "mailbox" 1 proxiedState = (Except.ok 3, proxiedState)
    ∧ deployProxiedContract "mailbox" 9 firstWrap.2 = (Except.ok 2, firstWrap.2) := by
  refine ⟨by decide, ?_⟩
  exact no_double_proxy_C5 proxiedState 3 1 3 "mailbox"
    (by decide) (by decide) (by decide) (by decide)

/-! ## C7 — reconciliation ordering -/

/-- Counterexample to C7 as stated: `configureClient` reconciles the hook
first and the authorization module second — the transaction log is the set
hook transaction followed by the set ISM transaction, so module
reconciliation does not precede hook reconciliation. -/
theorem hook_reconciled_before_ism_C7_cx :
    configureClient 2
        { hook := some 5, interchainSecurityModule := some (IsmConfig.literal 6) }
        clientState
      |>.2.txLog = [Tx.setHookTx 2 5, Tx.setIsmTx 2 6] := by
  decide

set_option maxHeartbeats 8000000 in
/-- C7 amended: in the single-chain reconciliation sequence, hook
reconciliation precedes authorization-module reconciliation, and every
ownership-transfer transaction comes after both — for any stale hook/ISM
values and any target owner, the classified transactions of a full run
appear in the order set-hook, set-ISM, transfer-ownership. -/
theorem hook_before_ism_before_transfer_C7
    (i0 h0 r0 iT ow : Address) :
    sortedRanks (List.filterMap txRank
      ((coreDeployContracts (cfgStale iT ow) (staleFull i0 h0 r0)).2.txLog)) = true := by
  by_cases hi : i0 = iT <;> by_cases hh : h0 = 30 <;> by_cases hr : r0 = 31 <;>
    by_cases ho : ow = 1000 <;>
    simp [@eq_comm Address 30 h0, @eq_comm Address 31 r0, @eq_comm Address 1000 ow,
      coreDeployContracts, deployContract, deployContractWithName,
      deployContractFromFactory, readCache, alookup, upsert, writeCache, handleDeploy,
      deployFresh, noCtor, getS, modifyS, DeployM.bind, DeployM.pure, bind, pure,
      deployMailbox, deployProxiedContract, deployProxy, isProxy, eqAddress, AddressZero,
      moduleMatchesConfigB, moduleMatches, ismDeployConfig, ismFactoryDeploy,
      deployHookStrategy, deployTestRecipientStrategy, mailboxInit, tryCatchM, throwErr,
      deployTimelock, transferOwnershipOfContracts, transferStep, runIfOwner, runIf,
      configureHook, configureIsm, clientGetHook, clientSetHook, clientGetIsm,
      clientSetIsm, mailboxGetRequiredHook, mailboxSetRequiredHook, matchesAlreadyInit,
      containsSub, subMatch, leadMatch, alreadyInitMessage, staleFull, cfgStale,
      cleanChain, signerAddr, txRank, sortedRanks, hi, hh, hr, ho]

/-! ## C6 — the already-initialized path -/

set_option maxHeartbeats 8000000 in
/-- C6: when the mailbox's `initialize` fails with the duplicate-
initialization signal (substring-matched on the revert message), the
orchestrator does not propagate the error but reconciles the existing
configuration — for any stale hook/ISM values the run returns the mailbox
without raising and leaves default hook, required hook and default ISM
equal to their targets; an initialization error that does not match the
signal is rethrown. -/
theorem already_initialized_reconciles_C6 (i0 h0 r0 iT : Address) :
    ((deployMailbox (cfgStale iT 1000) 1 (staleFull i0 h0 r0)).1 = Except.ok 2
     ∧ (deployMailbox (cfgStale iT 1000) 1 (staleFull i0 h0 r0)).2.chain.hook 2 = 30
     ∧ (deployMailbox (cfgStale iT 1000) 1 (staleFull i0 h0 r0)).2.chain.requiredHook 2 = 31
     ∧ (deployMailbox (cfgStale iT 1000) 1 (staleFull i0 h0 r0)).2.chain.ism 2 = iT)
    ∧ (deployMailbox (cfgStale 6 1000) 1 brokenState).1
        = Except.error { message := "ECONNRESET", reason := none } := by
  constructor
  · by_cases hi : i0 = iT <;> by_cases hh : h0 = 30 <;> by_cases hr : r0 = 31 <;>
      refine ⟨?_, ?_, ?_, ?_⟩ <;>
      simp [@eq_comm Address 30 h0, @eq_comm Address 31 r0,
        deployContractWithName, deployContractFromFactory, readCache, alookup, upsert,
        writeCache, handleDeploy, deployFresh, noCtor, getS, modifyS, DeployM.bind,
        DeployM.pure, bind, pure, deployMailbox, deployProxiedContract, deployProxy,
        isProxy, eqAddress, AddressZero, moduleMatchesConfigB, moduleMatches,
        ismDeployConfig, ismFactoryDeploy, deployHookStrategy, mailboxInit, tryCatchM,
        throwErr, runIfOwner, runIf, configureHook, configureIsm, clientGetHook,
        clientSetHook, clientGetIsm, clientSetIsm, mailboxGetRequiredHook,
        mailboxSetRequiredHook, matchesAlreadyInit, containsSub, subMatch, leadMatch,
        alreadyInitMessage, staleFull, cfgStale, cleanChain, signerAddr, hi, hh, hr]
  · simp [brokenState, deployContractWithName, deployContractFromFactory, readCache,
      alookup, upsert, writeCache, handleDeploy, deployFresh, noCtor, getS, modifyS,
      DeployM.bind, DeployM.pure, bind, pure, deployMailbox, deployProxiedContract,
      deployProxy, isProxy, eqAddress, AddressZero, moduleMatchesConfigB, moduleMatches,
      ismDeployConfig, ismFactoryDeploy, deployHookStrategy, mailboxInit, tryCatchM,
      throwErr, runIfOwner, runIf, configureHook, configureIsm, clientGetHook,
      clientSetHook, clientGetIsm, clientSetIsm, mailboxGetRequiredHook,
      mailboxSetRequiredHook, matchesAlreadyInit, containsSub, subMatch, leadMatch,
      alreadyInitMessage, staleFull, cfgStale, cleanChain, signerAddr]

/-! ## C1 — multi-chain batch behaviour on a failing chain -/

/-- Counterexample to C1 as stated: with three target chains where the
second raises a non-timeout fatal error, `deploy` rejects with that error
instead of returning a per-chain outcome map, chain `three` is never
attempted (no starting block number is recorded for it), and the successful
result obtained for chain `one` is only retained in the instance state, not
returned. -/
theorem batch_failure_aborts_C1_cx :
    (deploy mp3 dcFail cfg3 emptyRun).1 = Except.error { message := "boom", reason := none }
    ∧ (deploy mp3 dcFail cfg3 emptyRun).2.startingBlockNumbers = [("one", 5), ("two", 5)]
    ∧ (deploy mp3 dcFail cfg3 emptyRun).2.deployedContracts = [("one", 1)] := by
  decide

/-- The per-chain loop aborts at the first failing chain: every earlier
chain is attempted and merged, the failing chain is attempted, nothing
after it is, and the error propagates. -/
theorem runChains_error {Cfg C : Type} (mp : MultiProvider)
    (dc : ChainName → Cfg → Except DeployerError C)
    (chain : ChainName) (cfg : Cfg) (e : DeployerError)
    (post : List (ChainName × Cfg))
    (hfail : dc chain cfg = Except.error e) :
    ∀ (pre : List (ChainName × Cfg)) (s : RunState C),
      (∀ p ∈ pre, isOkB (dc p.1 p.2) = true) →
      runChains mp dc (pre ++ (chain, cfg) :: post) s =
        (Except.error e,
         { deployedContracts := okResults dc pre s.deployedContracts
           startingBlockNumbers :=
             upsert (attemptTrace mp pre s.startingBlockNumbers) chain
               (mp.blockNumber chain) }) := by
  intro pre
  induction pre with
  | nil =>
    intro s _
    simp [runChains, runWithTimeout, hfail, okResults, attemptTrace]
  | cons p rest ih =>
    intro s hp
    obtain ⟨c0, cfg0⟩ := p
    have h0 : isOkB (dc c0 cfg0) = true := hp _ (List.mem_cons_self _ _)
    match hdc : dc c0 cfg0 with
    | Except.error e0 =>
      rw [hdc] at h0
      simp [isOkB] at h0
    | Except.ok v =>
      simp only [List.cons_append, runChains, runWithTimeout, hdc, okResults,
        attemptTrace]
      exact ih _ (fun q hq => hp q (List.mem_cons_of_mem _ hq))

/-- C1 amended: when the target chains split as `pre ++ failing :: post`
with every chain of `pre` succeeding and the failing chain raising a
non-timeout fatal error, `deploy` does not continue: it propagates the
error (returning no outcome map), records attempts only for `pre` and the
failing chain — the chains of `post` are never attempted — and keeps the
contracts of `pre` only in the instance state. -/
theorem deploy_aborts_on_first_failure_C1 {Cfg C : Type}
    (mp : MultiProvider) (dc : ChainName → Cfg → Except DeployerError C)
    (configMap pre post : List (ChainName × Cfg)) (chain : ChainName) (cfg : Cfg)
    (e : DeployerError) (s : RunState C)
    (hsplit : configMap.filter (fun p => targetPred mp p.1) = pre ++ (chain, cfg) :: post)
    (hpre : ∀ p ∈ pre, isOkB (dc p.1 p.2) = true)
    (hfail : dc chain cfg = Except.error e) :
    deploy mp dc configMap s =
      (Except.error e,
       { deployedContracts := okResults dc pre s.deployedContracts
         startingBlockNumbers :=
           upsert (attemptTrace mp pre s.startingBlockNumbers) chain
             (mp.blockNumber chain) }) := by
  have h := runChains_error mp dc chain cfg e post hfail pre s hpre
  simp [deploy, hsplit, h]

/-- Witness for the amended C1 at the three-chain input. -/
theorem deploy_aborts_on_first_failure_C1_witness :
    (cfg3.filter (fun p => targetPred mp3 p.1)
        = [("one", ())] ++ ("two", ()) :: [("three", ())]
     ∧ (∀ p ∈ [(("one" : ChainName), ())], isOkB (dcFail p.1 p.2) = true)
     ∧ dcFail "two" () = Except.error { message := "boom", reason := none })
    ∧ deploy mp3 dcFail cfg3 emptyRun =
       (Except.error { message := "boom", reason := none },
        { deployedContracts := okResults dcFail [("one", ())] emptyRun.deployedContracts
          startingBlockNumbers :=
            upsert (attemptTrace mp3 [("one", ())] emptyRun.startingBlockNumbers) "two"
              (mp3.blockNumber "two") }) :=
  ⟨⟨by decide, by decide, by decide⟩,
   deploy_aborts_on_first_failure_C1 mp3 dcFail cfg3 [("one", ())] [("three", ())]
     "two" () { message := "boom", reason := none } emptyRun
     (by decide) (by decide) (by decide)⟩

/-! ## C10 — only known Ethereum chains are attempted -/

/-- Membership after an `upsert` comes from the original list or carries the
written key. -/
theorem mem_upsert {α : Type} (l : List (String × α)) (k k' : String) (v q : α)
    (h : (k', q) ∈ upsert l k v) : (k', q) ∈ l ∨ k' = k := by
  induction l with
  | nil =>
    simp only [upsert, List.mem_singleton, Prod.mk.injEq] at h
    exact Or.inr h.1
  | cons p rest ih =>
    obtain ⟨k0, v0⟩ := p
    by_cases hk : k0 = k
    · subst hk
      simp [upsert] at h
      rcases h with h | h
      · exact Or.inr h.1
      · exact Or.inl (List.mem_cons_of_mem _ h)
    · simp [upsert, hk] at h
      rcases h with h | h
      · exact Or.inl (by simp [h])
      · rcases ih h with h1 | h1
        · exact Or.inl (List.mem_cons_of_mem _ h1)
        · exact Or.inr h1

/-- `upsert` at one key does not change lookups at another. -/
theorem alookup_upsert_ne {α : Type} (l : List (String × α)) (k k' : String) (v : α)
    (h : k' ≠ k) : alookup (upsert l k v) k' = alookup l k' := by
  induction l with
  | nil => simp [upsert, alookup, Ne.symm h]
  | cons p rest ih =>
    obtain ⟨k0, v0⟩ := p
    by_cases hk : k0 = k
    · subst hk
      simp [upsert, alookup, Ne.symm h]
    · simp [upsert, alookup, hk, ih]

/-- Every chain recorded in the starting-block-number trace by the loop was
either recorded before or is among the attempted chains. -/
theorem runChains_attempted {Cfg C : Type} (mp : MultiProvider)
    (dc : ChainName → Cfg → Except DeployerError C) :
    ∀ (ps : List (ChainName × Cfg)) (s : RunState C) (c : ChainName) (n : Nat),
      (c, n) ∈ (runChains mp dc ps s).2.startingBlockNumbers →
      (c, n) ∈ s.startingBlockNumbers ∨ c ∈ ps.map Prod.fst := by
  intro ps
  induction ps with
  | nil =>
    intro s c n h
    simp [runChains] at h
    simp [h]
  | cons p rest ih =>
    intro s c n h
    obtain ⟨c0, cfg0⟩ := p
    simp only [runChains, runWithTimeout] at h
    cases hdc : dc c0 cfg0 with
    | error e =>
      rw [hdc] at h
      simp only [] at h
      rcases mem_upsert _ _ _ _ _ h with h1 | h1
      · left
        exact h1
      · right
        simp [h1]
    | ok v =>
      rw [hdc] at h
      simp only [] at h
      rcases ih _ c n h with h1 | h1
      · rcases mem_upsert _ _ _ _ _ h1 with h2 | h2
        · left
          exact h2
        · right
          simp [h2]
      · right
        simp [h1]

/-- The loop never touches contract-map entries of chains it does not
attempt. -/
theorem runChains_preserves {Cfg C : Type} (mp : MultiProvider)
    (dc : ChainName → Cfg → Except DeployerError C) :
    ∀ (ps : List (ChainName × Cfg)) (s : RunState C) (c : ChainName),
      c ∉ ps.map Prod.fst →
      alookup (runChains mp dc ps s).2.deployedContracts c
        = alookup s.deployedContracts c := by
  intro ps
  induction ps with
  | nil =>
    intro s c _
    simp [runChains]
  | cons p rest ih =>
    intro s c hc
    obtain ⟨c0, cfg0⟩ := p
    have hne : c ≠ c0 := by
      intro hh
      exact hc (by simp [hh])
    have hrest : c ∉ rest.map Prod.fst := by
      intro hh
      exact hc (by simp [hh])
    simp only [runChains, runWithTimeout]
    cases hdc : dc c0 cfg0 with
    | error e => simp
    | ok v =>
      rw [ih _ c hrest]
      simp [alookup_upsert_ne _ _ _ _ hne]

/-- Dropping elements already excluded by a filter does not change the
filter. -/
theorem filter_drop_excluded {α : Type} (p q : α → Bool) (l : List α)
    (h : ∀ a, p a = true → q a = true) :
    (l.filter q).filter p = l.filter p := by
  induction l with
  | nil => simp
  | cons a rest ih =>
    by_cases hq : q a = true
    · by_cases hp : p a = true
      · simp [hq, hp, ih]
      · simp [hq, hp, ih]
    · have hp : p a = false := by
        cases hpa : p a with
        | true => exact absurd (h a hpa) hq
        | false => rfl
      simp [hq, hp, ih]

/-- The state component of `deploy` is the state component of the loop over
the target chains. -/
theorem deploy_snd {Cfg C : Type} (mp : MultiProvider)
    (dc : ChainName → Cfg → Except DeployerError C)
    (configMap : List (ChainName × Cfg)) (s : RunState C) :
    (deploy mp dc configMap s).2
      = (runChains mp dc (configMap.filter (fun p => targetPred mp p.1)) s).2 := by
  simp only [deploy]
  split <;> simp_all

/-- C10: only configured chains with Ethereum protocol that the provider
knows are attempted; a configured chain of any other protocol is silently
skipped — removing it from the configuration changes nothing about the run,
and it appears in the returned contract map exactly as it appeared in the
instance state before the run. -/
theorem deploy_targets_only_C10 {Cfg C : Type}
    (mp : MultiProvider) (dc : ChainName → Cfg → Except DeployerError C)
    (configMap : List (ChainName × Cfg)) (s : RunState C) (bad : ChainName)
    (hbad : mp.protocol bad ≠ ProtocolType.ethereum) :
    (∀ c n, (c, n) ∈ (deploy mp dc configMap s).2.startingBlockNumbers →
       (c, n) ∈ s.startingBlockNumbers
       ∨ (c ∈ configMap.map Prod.fst ∧ mp.protocol c = ProtocolType.ethereum
          ∧ mp.knownChains.contains c = true))
    ∧ deploy mp dc (configMap.filter (fun p => !(p.1 == bad))) s
        = deploy mp dc configMap s
    ∧ (∀ m, (deploy mp dc configMap s).1 = Except.ok m →
         alookup m bad = alookup s.deployedContracts bad) := by
  have hbadp : targetPred mp bad = false := by
    cases htp : targetPred mp bad with
    | false => rfl
    | true =>
      simp only [targetPred, Bool.and_eq_true, beq_iff_eq] at htp
      exact absurd htp.1 hbad
  refine ⟨?_, ?_, ?_⟩
  · intro c n h
    rw [deploy_snd] at h
    rcases runChains_attempted mp dc _ s c n h with h1 | h1
    · left
      exact h1
    · right
      rcases List.mem_map.mp h1 with ⟨p, hp, hpc⟩
      have hf := List.mem_filter.mp hp
      have htp := hf.2
      simp only [targetPred, Bool.and_eq_true, beq_iff_eq] at htp
      subst hpc
      exact ⟨List.mem_map.mpr ⟨p, hf.1, rfl⟩, htp.1, htp.2⟩
  · have : (configMap.filter (fun p => !(p.1 == bad))).filter
        (fun p => targetPred mp p.1) = configMap.filter (fun p => targetPred mp p.1) := by
      apply filter_drop_excluded
      intro a ha
      by_cases hab : a.1 = bad
      · rw [hab] at ha
        rw [ha] at hbadp
        cases hbadp
      · simp [hab]
    simp only [deploy, this]
  · intro m hm
    have hnb : bad ∉ (configMap.filter (fun p => targetPred mp p.1)).map Prod.fst := by
      intro hh
      rcases List.mem_map.mp hh with ⟨p, hp, hpc⟩
      have hf := List.mem_filter.mp hp
      rw [hpc] at hf
      rw [hf.2] at hbadp
      cases hbadp
    have hpres := runChains_preserves mp dc _ s bad hnb
    simp only [deploy] at hm
    revert hm
    split
    · intro hm
      next h1 =>
        cases hm
        rw [← hpres]
        congr 1
        rw [h1]
    · intro hm
      cases hm

/-- Witness for C10 at a concrete input. -/
theorem deploy_targets_only_C10_witness :
    mpMixed.protocol "two" ≠ ProtocolType.ethereum
    ∧ ((∀ c n, (c, n) ∈ (deploy mpMixed dcOk cfg3 emptyRun).2.startingBlockNumbers →
          (c, n) ∈ emptyRun.startingBlockNumbers
          ∨ (c ∈ cfg3.map Prod.fst ∧ mpMixed.protocol c = ProtocolType.ethereum
             ∧ mpMixed.knownChains.contains c = true))
       ∧ deploy mpMixed dcOk (cfg3.filter (fun p => !(p.1 == "two"))) emptyRun
           = deploy mpMixed dcOk cfg3 emptyRun
       ∧ (∀ m, (deploy mpMixed dcOk cfg3 emptyRun).1 = Except.ok m →
            alookup m "two" = alookup emptyRun.deployedContracts "two")) :=
  ⟨by decide, deploy_targets_only_C10 mpMixed dcOk cfg3 emptyRun "two" (by decide)⟩

end Hyperlane

namespace Hyperlane

/-! ## C2 — machinery for the idempotent-second-run theorem -/

/-- Closed-form description of one ownership-transfer step: skip when the
owner already matches, transfer when the signer owns the contract, skip
silently otherwise. -/
theorem transferStep_eq (cfgO : OwnableConfig) (name : String) (a : Address)
    (S : DeployerState) :
    transferStep cfgO name a S =
      if S.chain.owner a = tgtOwner cfgO name then (Except.ok none, S)
      else if S.chain.owner a = S.signer then
        (Except.ok (some ()),
         { S with
           chain := { S.chain with
             owner := fun x => if x == a then tgtOwner cfgO name else S.chain.owner x }
           txLog := S.txLog ++ [Tx.transferTx a (tgtOwner cfgO name)] })
      else (Except.ok none, S) := by
  have htgt : (match alookup cfgO.ownerOverrides name with
               | some o => o
               | none => cfgO.owner) = tgtOwner cfgO name := rfl
  by_cases h1 : S.chain.owner a = tgtOwner cfgO name
  · simp [transferStep, runIfOwner, runIf, getS, modifyS, DeployM.bind,
      DeployM.pure, bind, pure, eqAddress, htgt, h1]
  · by_cases h2 : S.chain.owner a = S.signer
    · have h3 : ¬ (S.signer = tgtOwner cfgO name) := fun hh => h1 (h2.trans hh)
      simp [transferStep, runIfOwner, runIf, getS, modifyS, DeployM.bind,
        DeployM.pure, bind, pure, eqAddress, htgt, h1, h2, h3]
    · simp [transferStep, runIfOwner, runIf, getS, modifyS, DeployM.bind,
        DeployM.pure, bind, pure, eqAddress, htgt, h1, h2]

/-- A transfer step over a stable slot changes nothing. -/
theorem transferStep_stable_noop (cfgO : OwnableConfig) (name : String) (a : Address)
    (S : DeployerState) (h : ownerStable cfgO name a S) :
    transferStep cfgO name a S = (Except.ok none, S) := by
  rw [transferStep_eq]
  rcases h with h | h
  · simp [h]
  · by_cases h1 : S.chain.owner a = tgtOwner cfgO name
    · simp [h1]
    · simp [h1, h]

/-- A transfer step always succeeds. -/
theorem transferStep_isOk (cfgO : OwnableConfig) (name : String) (a : Address)
    (S : DeployerState) :
    ∃ w S1, transferStep cfgO name a S = (Except.ok w, S1) := by
  rw [transferStep_eq]
  split_ifs <;> exact ⟨_, _, rfl⟩

/-- A transfer step touches only the owner of its own contract and the
transaction log. -/
theorem transferStep_frame (cfgO : OwnableConfig) (name : String) (a : Address)
    (S : DeployerState) :
    ((transferStep cfgO name a S).2.signer = S.signer
     ∧ (transferStep cfgO name a S).2.cachedAddresses = S.cachedAddresses
     ∧ (transferStep cfgO name a S).2.deployedContracts = S.deployedContracts
     ∧ (transferStep cfgO name a S).2.hookLedger = S.hookLedger
     ∧ (transferStep cfgO name a S).2.recipientLedger = S.recipientLedger
     ∧ (transferStep cfgO name a S).2.chain.ism = S.chain.ism
     ∧ (transferStep cfgO name a S).2.chain.hook = S.chain.hook
     ∧ (transferStep cfgO name a S).2.chain.requiredHook = S.chain.requiredHook
     ∧ (transferStep cfgO name a S).2.chain.isInit = S.chain.isInit
     ∧ (transferStep cfgO name a S).2.chain.admin = S.chain.admin
     ∧ (transferStep cfgO name a S).2.chain.ismSpecOf = S.chain.ismSpecOf
     ∧ (transferStep cfgO name a S).2.chain.initErr = S.chain.initErr
     ∧ (transferStep cfgO name a S).2.chain.nextFree = S.chain.nextFree
     ∧ (transferStep cfgO name a S).2.chain.code = S.chain.code)
    ∧ (∀ b, b ≠ a → (transferStep cfgO name a S).2.chain.owner b = S.chain.owner b) := by
  rw [transferStep_eq]
  split_ifs <;>
    refine ⟨⟨rfl, rfl, rfl, rfl, rfl, rfl, rfl, rfl, rfl, rfl, rfl, rfl, rfl, rfl⟩, ?_⟩ <;>
    intro b hb <;> simp [hb]

/-- After its own transfer step a slot is stable. -/
theorem transferStep_stable_post (cfgO : OwnableConfig) (name : String) (a : Address)
    (S : DeployerState) :
    ownerStable cfgO name a (transferStep cfgO name a S).2 := by
  rw [transferStep_eq]
  split_ifs with h1 h2
  · exact Or.inl h1
  · exact Or.inl (by simp)
  · exact Or.inr h2

/-- A transfer step at another slot — or at the same slot under the same
name — preserves stability. -/
theorem transferStep_preserves_stable (cfgO : OwnableConfig)
    (name name2 : String) (a b : Address) (S : DeployerState)
    (hs : ownerStable cfgO name a S)
    (hne : b ≠ a ∨ (b = a ∧ name2 = name)) :
    ownerStable cfgO name a (transferStep cfgO name2 b S).2 := by
  rcases hne with hne | ⟨hba, hnn⟩
  · have hfr := transferStep_frame cfgO name2 b S
    have ho := hfr.2 a (fun hh => hne hh.symm)
    have hsig := hfr.1.1
    rcases hs with h | h
    · exact Or.inl (by rw [ho]; exact h)
    · exact Or.inr (by rw [ho, hsig]; exact h)
  · rw [hba, hnn, transferStep_stable_noop cfgO name a S hs]
    exact hs

/-- The transfer pass never throws: it returns its receipt count over its
slot-by-slot final state. -/
theorem TOC_pair (cfgO : OwnableConfig) :
    ∀ (L : List (String × Address)) (S : DeployerState),
      transferOwnershipOfContracts cfgO L S
        = (Except.ok (TOCCount cfgO L S), TOCState cfgO L S) := by
  intro L
  induction L with
  | nil => intro S; rfl
  | cons p rest ih =>
    intro S
    obtain ⟨w, S1, hw⟩ := transferStep_isOk cfgO p.1 p.2 S
    rcases w with _ | ⟨⟩ <;>
      simp [transferOwnershipOfContracts, TOCCount, TOCState, DeployM.bind, DeployM.pure,
        bind, pure, hw, ih]

/-- The transfer pass touches only contract owners and the transaction
log. -/
theorem TOCState_frame (cfgO : OwnableConfig) :
    ∀ (L : List (String × Address)) (S : DeployerState),
      (TOCState cfgO L S).signer = S.signer
      ∧ (TOCState cfgO L S).cachedAddresses = S.cachedAddresses
      ∧ (TOCState cfgO L S).deployedContracts = S.deployedContracts
      ∧ (TOCState cfgO L S).hookLedger = S.hookLedger
      ∧ (TOCState cfgO L S).recipientLedger = S.recipientLedger
      ∧ (TOCState cfgO L S).chain.ism = S.chain.ism
      ∧ (TOCState cfgO L S).chain.hook = S.chain.hook
      ∧ (TOCState cfgO L S).chain.requiredHook = S.chain.requiredHook
      ∧ (TOCState cfgO L S).chain.isInit = S.chain.isInit
      ∧ (TOCState cfgO L S).chain.admin = S.chain.admin
      ∧ (TOCState cfgO L S).chain.ismSpecOf = S.chain.ismSpecOf
      ∧ (TOCState cfgO L S).chain.initErr = S.chain.initErr
      ∧ (TOCState cfgO L S).chain.nextFree = S.chain.nextFree
      ∧ (TOCState cfgO L S).chain.code = S.chain.code := by
  intro L
  induction L with
  | nil =>
    intro S
    exact ⟨rfl, rfl, rfl, rfl, rfl, rfl, rfl, rfl, rfl, rfl, rfl, rfl, rfl, rfl⟩
  | cons p rest ih =>
    intro S
    have hstep := (transferStep_frame cfgO p.1 p.2 S).1
    have hrest := ih (transferStep cfgO p.1 p.2 S).2
    rw [TOCState]
    obtain ⟨f1, f2, f3, f4, f5, f6, f7, f8, f9, f10, f11, f12, f13, f14⟩ := hstep
    obtain ⟨g1, g2, g3, g4, g5, g6, g7, g8, g9, g10, g11, g12, g13, g14⟩ := hrest
    exact ⟨g1.trans f1, g2.trans f2, g3.trans f3, g4.trans f4, g5.trans f5,
      g6.trans f6, g7.trans f7, g8.trans f8, g9.trans f9, g10.trans f10,
      g11.trans f11, g12.trans f12, g13.trans f13, g14.trans f14⟩

theorem TOCState_signer (cfgO : OwnableConfig) (L : List (String × Address))
    (S : DeployerState) : (TOCState cfgO L S).signer = S.signer :=
  (TOCState_frame cfgO L S).1

theorem TOCState_cached (cfgO : OwnableConfig) (L : List (String × Address))
    (S : DeployerState) : (TOCState cfgO L S).cachedAddresses = S.cachedAddresses :=
  (TOCState_frame cfgO L S).2.1

theorem TOCState_deployed (cfgO : OwnableConfig) (L : List (String × Address))
    (S : DeployerState) : (TOCState cfgO L S).deployedContracts = S.deployedContracts :=
  (TOCState_frame cfgO L S).2.2.1

theorem TOCState_hookLedger (cfgO : OwnableConfig) (L : List (String × Address))
    (S : DeployerState) : (TOCState cfgO L S).hookLedger = S.hookLedger :=
  (TOCState_frame cfgO L S).2.2.2.1

theorem TOCState_recipientLedger (cfgO : OwnableConfig) (L : List (String × Address))
    (S : DeployerState) : (TOCState cfgO L S).recipientLedger = S.recipientLedger :=
  (TOCState_frame cfgO L S).2.2.2.2.1

theorem TOCState_ism (cfgO : OwnableConfig) (L : List (String × Address))
    (S : DeployerState) : (TOCState cfgO L S).chain.ism = S.chain.ism :=
  (TOCState_frame cfgO L S).2.2.2.2.2.1

theorem TOCState_hook (cfgO : OwnableConfig) (L : List (String × Address))
    (S : DeployerState) : (TOCState cfgO L S).chain.hook = S.chain.hook :=
  (TOCState_frame cfgO L S).2.2.2.2.2.2.1

theorem TOCState_requiredHook (cfgO : OwnableConfig) (L : List (String × Address))
    (S : DeployerState) : (TOCState cfgO L S).chain.requiredHook = S.chain.requiredHook :=
  (TOCState_frame cfgO L S).2.2.2.2.2.2.2.1

theorem TOCState_isInit (cfgO : OwnableConfig) (L : List (String × Address))
    (S : DeployerState) : (TOCState cfgO L S).chain.isInit = S.chain.isInit :=
  (TOCState_frame cfgO L S).2.2.2.2.2.2.2.2.1

theorem TOCState_admin (cfgO : OwnableConfig) (L : List (String × Address))
    (S : DeployerState) : (TOCState cfgO L S).chain.admin = S.chain.admin :=
  (TOCState_frame cfgO L S).2.2.2.2.2.2.2.2.2.1

theorem TOCState_ismSpecOf (cfgO : OwnableConfig) (L : List (String × Address))
    (S : DeployerState) : (TOCState cfgO L S).chain.ismSpecOf = S.chain.ismSpecOf :=
  (TOCState_frame cfgO L S).2.2.2.2.2.2.2.2.2.2.1

theorem TOCState_initErr (cfgO : OwnableConfig) (L : List (String × Address))
    (S : DeployerState) : (TOCState cfgO L S).chain.initErr = S.chain.initErr :=
  (TOCState_frame cfgO L S).2.2.2.2.2.2.2.2.2.2.2.1

theorem TOCState_nextFree (cfgO : OwnableConfig) (L : List (String × Address))
    (S : DeployerState) : (TOCState cfgO L S).chain.nextFree = S.chain.nextFree :=
  (TOCState_frame cfgO L S).2.2.2.2.2.2.2.2.2.2.2.2.1

theorem TOCState_code (cfgO : OwnableConfig) (L : List (String × Address))
    (S : DeployerState) : (TOCState cfgO L S).chain.code = S.chain.code :=
  (TOCState_frame cfgO L S).2.2.2.2.2.2.2.2.2.2.2.2.2

/-- Stability of a slot survives the transfer pass when every entry at the
slot's address carries the slot's name. -/
theorem TOCState_preserves_stable (cfgO : OwnableConfig) (name : String) (a : Address) :
    ∀ (L : List (String × Address)) (S : DeployerState),
      ownerStable cfgO name a S →
      (∀ q ∈ L, q.2 = a → q.1 = name) →
      ownerStable cfgO name a (TOCState cfgO L S) := by
  intro L
  induction L with
  | nil => intro S hs _; exact hs
  | cons p rest ih =>
    intro S hs hq
    rw [TOCState]
    refine ih _ ?_ (fun q hq2 => hq q (List.mem_cons_of_mem _ hq2))
    by_cases hpa : p.2 = a
    · exact transferStep_preserves_stable cfgO name p.1 a p.2 S hs
        (Or.inr ⟨hpa, hq p (List.mem_cons_self _ _) hpa⟩)
    · exact transferStep_preserves_stable cfgO name p.1 a p.2 S hs (Or.inl hpa)

/-- After the transfer pass every listed slot whose address determines its
name is stable. -/
theorem TOCState_post_stable (cfgO : OwnableConfig) :
    ∀ (L : List (String × Address)) (S : DeployerState) (name : String) (a : Address),
      (name, a) ∈ L →
      (∀ q ∈ L, q.2 = a → q.1 = name) →
      ownerStable cfgO name a (TOCState cfgO L S) := by
  intro L
  induction L with
  | nil => intro S name a h; cases h
  | cons p rest ih =>
    intro S name a hmem hq
    rw [TOCState]
    rcases List.mem_cons.mp hmem with hp | hp
    · have hpn : p.1 = name ∧ p.2 = a := by
        rw [← hp]
        exact ⟨rfl, rfl⟩
      refine TOCState_preserves_stable cfgO name a rest _ ?_
        (fun q hq2 => hq q (List.mem_cons_of_mem _ hq2))
      rw [← hpn.1, ← hpn.2]
      exact transferStep_stable_post cfgO p.1 p.2 S
    · exact ih _ name a hp (fun q hq2 => hq q (List.mem_cons_of_mem _ hq2))

/-- The transfer pass over only stable slots changes nothing. -/
theorem TOCState_noop (cfgO : OwnableConfig) :
    ∀ (L : List (String × Address)) (S : DeployerState),
      (∀ p ∈ L, ownerStable cfgO p.1 p.2 S) →
      TOCState cfgO L S = S := by
  intro L
  induction L with
  | nil => intro S _; rfl
  | cons p rest ih =>
    intro S hstab
    rw [TOCState, transferStep_stable_noop cfgO p.1 p.2 S (hstab p (List.mem_cons_self _ _))]
    exact ih S (fun q hq => hstab q (List.mem_cons_of_mem _ hq))

/-- The transfer pass over only stable slots submits no transaction. -/
theorem TOCState_txLog_of_stable (cfgO : OwnableConfig) (L : List (String × Address))
    (S : DeployerState) (h : ∀ p ∈ L, ownerStable cfgO p.1 p.2 S) :
    (TOCState cfgO L S).txLog = S.txLog := by
  rw [TOCState_noop cfgO L S h]

/-- A second transfer pass over the first pass's outcome submits no
transaction, for any slot list in which an address determines its name. -/
theorem second_TOC_noop_of_inj (cfgO : OwnableConfig) (L : List (String × Address))
    (SA : DeployerState)
    (hinj : ∀ p ∈ L, ∀ q ∈ L, q.2 = p.2 → q.1 = p.1) :
    (TOCState cfgO L (SB_of cfgO L SA)).txLog = (TOCState cfgO L SA).txLog := by
  have hstab : ∀ p ∈ L, ownerStable cfgO p.1 p.2 (SB_of cfgO L SA) := by
    intro p hp
    have h := TOCState_post_stable cfgO L SA p.1 p.2
      (by rw [Prod.mk.eta]; exact hp) (hinj p hp)
    unfold ownerStable at h ⊢
    rcases h with h | h
    · exact Or.inl h
    · refine Or.inr ?_
      rw [TOCState_signer] at h
      exact h
  calc (TOCState cfgO L (SB_of cfgO L SA)).txLog
      = (SB_of cfgO L SA).txLog := TOCState_txLog_of_stable cfgO L _ hstab
    _ = (TOCState cfgO L SA).txLog := rfl

set_option maxHeartbeats 16000000 in
/-- C2 amended: with no upgrade/timelock section configured, running the
full deployment a second time against the same chain with no intervening
external mutation performs zero additional mutating transactions — the
transaction log after the second run equals the log after the first, every
slot resolves through the ledgers, and the second run returns the same
per-slot contract map. -/
theorem second_run_performs_no_txs_C2 (cfg : CoreConfig)
    (hrm : cfg.remove = false) (hup : cfg.upgrade = false) :
    (coreDeployContracts cfg (coreDeployContracts cfg cleanState).2).2.txLog
      = (coreDeployContracts cfg cleanState).2.txLog
    ∧ (coreDeployContracts cfg (coreDeployContracts cfg cleanState).2).1
      = (coreDeployContracts cfg cleanState).1 := by
  obtain ⟨ow, ovr, dIsm, dh, rh, rm, up⟩ := cfg
  replace hrm : rm = false := hrm
  replace hup : up = false := hup
  subst hrm
  subst hup
  rcases dIsm with z | sp
  · by_cases hdh : dh = rh
    · subst hdh
      by_cases hz : z = 0
      · subst hz
        simp [coreDeployContracts, deployContract, deployContractWithName,
          deployContractFromFactory, readCache, alookup, upsert, writeCache, handleDeploy,
          deployFresh, noCtor, getS, modifyS, DeployM.bind, DeployM.pure, bind, pure,
          cleanState, cleanChain, signerAddr, deployMailbox, deployProxiedContract,
          deployProxy, isProxy, eqAddress, AddressZero, moduleMatchesConfigB,
          moduleMatches, ismDeployConfig, ismFactoryDeploy, deployHookStrategy,
          deployTestRecipientStrategy, mailboxInit, tryCatchM, throwErr, deployTimelock,
          runIfOwner, runIf, configureHook, configureIsm, clientGetHook, clientSetHook,
          clientGetIsm, clientSetIsm, mailboxGetRequiredHook, mailboxSetRequiredHook,
          matchesAlreadyInit, containsSub, subMatch, leadMatch, alreadyInitMessage,
          TOC_pair, TOCState_signer, TOCState_cached, TOCState_deployed,
          TOCState_hookLedger, TOCState_recipientLedger, TOCState_ism, TOCState_hook,
          TOCState_requiredHook, TOCState_isInit, TOCState_admin, TOCState_ismSpecOf,
          TOCState_initErr, TOCState_nextFree, TOCState_code]
        exact second_TOC_noop_of_inj { owner := ow, ownerOverrides := ovr } slots56
          (SA_litSame0 ow dh) (by decide)
      · have hz2 : ¬ ((0 : Address) = z) := fun h => hz h.symm
        simp [hz, hz2, coreDeployContracts, deployContract, deployContractWithName,
          deployContractFromFactory, readCache, alookup, upsert, writeCache, handleDeploy,
          deployFresh, noCtor, getS, modifyS, DeployM.bind, DeployM.pure, bind, pure,
          cleanState, cleanChain, signerAddr, deployMailbox, deployProxiedContract,
          deployProxy, isProxy, eqAddress, AddressZero, moduleMatchesConfigB,
          moduleMatches, ismDeployConfig, ismFactoryDeploy, deployHookStrategy,
          deployTestRecipientStrategy, mailboxInit, tryCatchM, throwErr, deployTimelock,
          runIfOwner, runIf, configureHook, configureIsm, clientGetHook, clientSetHook,
          clientGetIsm, clientSetIsm, mailboxGetRequiredHook, mailboxSetRequiredHook,
          matchesAlreadyInit, containsSub, subMatch, leadMatch, alreadyInitMessage,
          TOC_pair, TOCState_signer, TOCState_cached, TOCState_deployed,
          TOCState_hookLedger, TOCState_recipientLedger, TOCState_ism, TOCState_hook,
          TOCState_requiredHook, TOCState_isInit, TOCState_admin, TOCState_ismSpecOf,
          TOCState_initErr, TOCState_nextFree, TOCState_code]
        exact second_TOC_noop_of_inj { owner := ow, ownerOverrides := ovr } slots56
          (SA_litSame ow z dh) (by decide)
    · have hdh2 : ¬ (rh = dh) := fun h => hdh h.symm
      by_cases hz : z = 0
      · subst hz
        simp [hdh, hdh2, coreDeployContracts, deployContract, deployContractWithName,
          deployContractFromFactory, readCache, alookup, upsert, writeCache, handleDeploy,
          deployFresh, noCtor, getS, modifyS, DeployM.bind, DeployM.pure, bind, pure,
          cleanState, cleanChain, signerAddr, deployMailbox, deployProxiedContract,
          deployProxy, isProxy, eqAddress, AddressZero, moduleMatchesConfigB,
          moduleMatches, ismDeployConfig, ismFactoryDeploy, deployHookStrategy,
          deployTestRecipientStrategy, mailboxInit, tryCatchM, throwErr, deployTimelock,
          runIfOwner, runIf, configureHook, configureIsm, clientGetHook, clientSetHook,
          clientGetIsm, clientSetIsm, mailboxGetRequiredHook, mailboxSetRequiredHook,
          matchesAlreadyInit, containsSub, subMatch, leadMatch, alreadyInitMessage,
          TOC_pair, TOCState_signer, TOCState_cached, TOCState_deployed,
          TOCState_hookLedger, TOCState_recipientLedger, TOCState_ism, TOCState_hook,
          TOCState_requiredHook, TOCState_isInit, TOCState_admin, TOCState_ismSpecOf,
          TOCState_initErr, TOCState_nextFree, TOCState_code]
        exact second_TOC_noop_of_inj { owner := ow, ownerOverrides := ovr } slots67
          (SA_lit0 ow dh rh) (by decide)
      · have hz2 : ¬ ((0 : Address) = z) := fun h => hz h.symm
        simp [hz, hz2, hdh, hdh2, coreDeployContracts, deployContract,
          deployContractWithName, deployContractFromFactory, readCache, alookup, upsert,
          writeCache, handleDeploy, deployFresh, noCtor, getS, modifyS, DeployM.bind,
          DeployM.pure, bind, pure, cleanState, cleanChain, signerAddr, deployMailbox,
          deployProxiedContract, deployProxy, isProxy, eqAddress, AddressZero,
          moduleMatchesConfigB, moduleMatches, ismDeployConfig, ismFactoryDeploy,
          deployHookStrategy, deployTestRecipientStrategy, mailboxInit, tryCatchM,
          throwErr, deployTimelock, runIfOwner, runIf, configureHook, configureIsm,
          clientGetHook, clientSetHook, clientGetIsm, clientSetIsm,
          mailboxGetRequiredHook, mailboxSetRequiredHook, matchesAlreadyInit,
          containsSub, subMatch, leadMatch, alreadyInitMessage, TOC_pair,
          TOCState_signer, TOCState_cached, TOCState_deployed, TOCState_hookLedger,
          TOCState_recipientLedger, TOCState_ism, TOCState_hook, TOCState_requiredHook,
          TOCState_isInit, TOCState_admin, TOCState_ismSpecOf, TOCState_initErr,
          TOCState_nextFree, TOCState_code]
        exact second_TOC_noop_of_inj { owner := ow, ownerOverrides := ovr } slots67
          (SA_lit ow z dh rh) (by decide)
  · by_cases hdh : dh = rh
    · subst hdh
      simp [coreDeployContracts, deployContract, deployContractWithName,
        deployContractFromFactory, readCache, alookup, upsert, writeCache, handleDeploy,
        deployFresh, noCtor, getS, modifyS, DeployM.bind, DeployM.pure, bind, pure,
        cleanState, cleanChain, signerAddr, deployMailbox, deployProxiedContract,
        deployProxy, isProxy, eqAddress, AddressZero, moduleMatchesConfigB,
        moduleMatches, ismDeployConfig, ismFactoryDeploy, deployHookStrategy,
        deployTestRecipientStrategy, mailboxInit, tryCatchM, throwErr, deployTimelock,
        runIfOwner, runIf, configureHook, configureIsm, clientGetHook, clientSetHook,
        clientGetIsm, clientSetIsm, mailboxGetRequiredHook, mailboxSetRequiredHook,
        matchesAlreadyInit, containsSub, subMatch, leadMatch, alreadyInitMessage,
        TOC_pair, TOCState_signer, TOCState_cached, TOCState_deployed,
        TOCState_hookLedger, TOCState_recipientLedger, TOCState_ism, TOCState_hook,
        TOCState_requiredHook, TOCState_isInit, TOCState_admin, TOCState_ismSpecOf,
        TOCState_initErr, TOCState_nextFree, TOCState_code]
      exact second_TOC_noop_of_inj { owner := ow, ownerOverrides := ovr } slots67
        (SA_strSame ow sp dh) (by decide)
    · have hdh2 : ¬ (rh = dh) := fun h => hdh h.symm
      simp [hdh, hdh2, coreDeployContracts, deployContract, deployContractWithName,
        deployContractFromFactory, readCache, alookup, upsert, writeCache, handleDeploy,
        deployFresh, noCtor, getS, modifyS, DeployM.bind, DeployM.pure, bind, pure,
        cleanState, cleanChain, signerAddr, deployMailbox, deployProxiedContract,
        deployProxy, isProxy, eqAddress, AddressZero, moduleMatchesConfigB,
        moduleMatches, ismDeployConfig, ismFactoryDeploy, deployHookStrategy,
        deployTestRecipientStrategy, mailboxInit, tryCatchM, throwErr, deployTimelock,
        runIfOwner, runIf, configureHook, configureIsm, clientGetHook, clientSetHook,
        clientGetIsm, clientSetIsm, mailboxGetRequiredHook, mailboxSetRequiredHook,
        matchesAlreadyInit, containsSub, subMatch, leadMatch, alreadyInitMessage,
        TOC_pair, TOCState_signer, TOCState_cached, TOCState_deployed,
        TOCState_hookLedger, TOCState_recipientLedger, TOCState_ism, TOCState_hook,
        TOCState_requiredHook, TOCState_isInit, TOCState_admin, TOCState_ismSpecOf,
        TOCState_initErr, TOCState_nextFree, TOCState_code]
      exact second_TOC_noop_of_inj { owner := ow, ownerOverrides := ovr } slots78
        (SA_str ow sp dh rh) (by decide)

set_option maxHeartbeats 4000000 in
/-- Counterexample to C2 as stated: with an upgrade/timelock section in the
configuration, the second run of the full deployment against the same chain
performs an additional mutating transaction — the timelock slot bypasses the
ledger entirely (`deployTimelock` neither reads nor writes the cache), so a
fresh timelock controller is deployed again. -/
theorem timelock_redeployed_C2_cx :
    (coreDeployContracts cfgWithUpgrade
        (coreDeployContracts cfgWithUpgrade cleanState).2).2.txLog
      = (coreDeployContracts cfgWithUpgrade cleanState).2.txLog
        ++ [Tx.deployTx "timelockController" 10] := by
  simp [cfgWithUpgrade, coreDeployContracts, deployContract, deployContractWithName,
    deployContractFromFactory, readCache, alookup, upsert, writeCache, handleDeploy,
    deployFresh, noCtor, getS, modifyS, DeployM.bind, DeployM.pure, bind, pure,
    cleanState, cleanChain, signerAddr, deployMailbox, deployProxiedContract,
    deployProxy, isProxy, eqAddress, AddressZero, moduleMatchesConfigB, moduleMatches,
    ismDeployConfig, ismFactoryDeploy, deployHookStrategy, deployTestRecipientStrategy,
    mailboxInit, tryCatchM, throwErr, deployTimelock, transferOwnershipOfContracts,
    transferStep, runIfOwner, runIf, configureHook, configureIsm, clientGetHook,
    clientSetHook, clientGetIsm, clientSetIsm, mailboxGetRequiredHook,
    mailboxSetRequiredHook, matchesAlreadyInit, containsSub, subMatch, leadMatch,
    alreadyInitMessage]

/-- Witness for the amended C2 at a concrete configuration. -/
theorem second_run_performs_no_txs_C2_witness :
    cfgNoUpgrade.remove = false ∧ cfgNoUpgrade.upgrade = false
    ∧ ((coreDeployContracts cfgNoUpgrade
          (coreDeployContracts cfgNoUpgrade cleanState).2).2.txLog
        = (coreDeployContracts cfgNoUpgrade cleanState).2.txLog
      ∧ (coreDeployContracts cfgNoUpgrade
          (coreDeployContracts cfgNoUpgrade cleanState).2).1
        = (coreDeployContracts cfgNoUpgrade cleanState).1) :=
  ⟨rfl, rfl, second_run_performs_no_txs_C2 cfgNoUpgrade rfl rfl⟩

end Hyperlane
